import Mathlib

/-!
# Verification of the QFG5 resource decoders

A shallow embedding of the decoding suite of the `qfg5-reenigne` repository
(`src/qfg5resource/…`).  Byte buffers are `List Nat` whose entries are byte
values; machine integers are `Nat` with explicit `% 2 ^ 32` where the Rust
code performs wrapping `u32` arithmetic; fallible decoders return
`Except DErr` and code paths that can panic (out-of-bounds indexing,
`todo!`) are modelled by an explicit panic outcome (`Option`/`DRes`).
IEEE-754 `f32` operations used by the palette conversion are modelled
exactly over scaled integers.
-/

set_option maxRecDepth 100000
set_option maxHeartbeats 1600000

set_option exponentiation.threshold 400

namespace Qfg5

/-! ## Definitions -/

/-! ### RLE codec (`decode.rs`, `decode_rle`)

The Rust decoder walks `data` with an index `n` that only moves forward and
never re-reads earlier bytes, so the embedding consumes the input list
directly; the mutable output slice is an explicit list with its write index.
`none` models a Rust panic (index out of bounds on `output[...]`/`data[...]`).
The main loop is written with explicit fuel so that it is structurally
recursive and computable by the kernel; every iteration consumes at least
one input byte, so fuel `data.length` never runs out (the fuel-0-on-cons
case is unreachable from `decode_rle`).
-/

/-- The repeat-run inner loop:
`for _ in 0..count { output[oi] = value; oi += 1; if oi == output.len() { break } }`. -/
def repeatLoop : List Nat → Nat → Nat → Nat → Option (List Nat × Nat)
  | output, oi, _, 0 => some (output, oi)
  | output, oi, value, count + 1 =>
    if oi < output.length then
      let output1 := output.set oi value
      if oi + 1 = output1.length then some (output1, oi + 1)
      else repeatLoop output1 (oi + 1) value count
    else none

/-- The literal-run inner loop:
`for j in 0..count { output[oi] = data[n+j+1]; oi += 1; if oi == output.len() { break } }`;
the bytes `data[n+1..]` are passed as the `chunk` list. -/
def literalLoop : List Nat → Nat → List Nat → Nat → Option (List Nat × Nat)
  | output, oi, _, 0 => some (output, oi)
  | _, _, [], _ + 1 => none
  | output, oi, b :: chunk, count + 1 =>
    if oi < output.length then
      let output1 := output.set oi b
      if oi + 1 = output1.length then some (output1, oi + 1)
      else literalLoop output1 (oi + 1) chunk count
    else none

/-- The main `while n < data.len()` loop of `decode_rle`.  After a literal
run of `count` bytes the source advances `n` by `count + 1` regardless of an
early `break`, hence the `drop count`. -/
def rleLoopF : Nat → List Nat → List Nat → Nat → Option (List Nat)
  | _, [], output, _ => some output
  | 0, _ :: _, _, _ => none
  | fuel + 1, c :: rest, output, oi =>
    if c = 0 then rleLoopF fuel rest output oi
    else if c < 128 then
      match rest with
      | [] => none
      | v :: rest1 =>
        match repeatLoop output oi v c with
        | none => none
        | some (output1, oi1) => rleLoopF fuel rest1 output1 oi1
    else
      let count := 256 - c
      match literalLoop output oi rest count with
      | none => none
      | some (output1, oi1) => rleLoopF fuel (rest.drop count) output1 oi1

/-- `decode_rle(data, output)`; `some` is the final output buffer, `none`
models a panic. -/
def decode_rle (data output : List Nat) : Option (List Nat) :=
  rleLoopF data.length data output 0

/-- `input` is a literal-run encoding of `bytes`: a sequence of chunks, each
introduced by the control byte `256 - chunkLen` (for `1 ≤ chunkLen ≤ 128`,
i.e. a control byte in `[128, 255]`) followed by the chunk's bytes. -/
inductive IsLiteralEncoding : List Nat → List Nat → Prop where
  | nil : IsLiteralEncoding [] []
  | chunk (c rest restBytes : List Nat) (h1 : 1 ≤ c.length) (h2 : c.length ≤ 128)
      (h : IsLiteralEncoding rest restBytes) :
      IsLiteralEncoding ((256 - c.length) :: (c ++ rest)) (c ++ restBytes)

/-! ### Bytes, little-endian words, errors and the binary cursor -/

/-- Value of a little-endian byte list. -/
def leVal (bs : List Nat) : Nat := bs.foldr (fun b acc => b + 256 * acc) 0

/-- Little-endian bytes of a 16-bit value. -/
def u16le (v : Nat) : List Nat := [v % 256, v / 256 % 256]

/-- Little-endian bytes of a 32-bit value. -/
def u32le (v : Nat) : List Nat :=
  [v % 256, v / 256 % 256, v / 65536 % 256, v / 16777216 % 256]

/-- Little-endian 32-bit value of four bytes. -/
def leVal4 (b0 b1 b2 b3 : Nat) : Nat :=
  b0 + 256 * b1 + 65536 * b2 + 16777216 * b3

/-- The byte of `data` at `p` (0 when out of range; reads used with this
default are always guarded by the corresponding decoder's bound checks). -/
def byteAtD (data : List Nat) (p : Nat) : Nat := data.getD p 0

/-- The little-endian `u16` of `data` at `p` (with 0-default bytes). -/
def u16AtD (data : List Nat) (p : Nat) : Nat :=
  byteAtD data p + 256 * byteAtD data (p + 1)

/-- The little-endian `u32` of `data` at `p` (missing high bytes read as
0; coincides with `leVal4` of the four `byteAtD` bytes). -/
def u32AtD (data : List Nat) (p : Nat) : Nat := leVal ((data.drop p).take 4)

/-- Decode errors (`anyhow::Error` / `io::Error` in the source). -/
inductive DErr where
  | ioError
  | utf8Error
  | invalidData (msg : String)
deriving DecidableEq

/-- A seekable little-endian reader over a byte buffer
(`std::io::Cursor` in the source; also used for positional file reads). -/
structure BCursor where
  data : List Nat
  pos : Nat
deriving DecidableEq

/-- `read_exact` of `n` bytes: fails with an I/O error when fewer than `n`
bytes remain past the current position. -/
def BCursor.readN (c : BCursor) (n : Nat) : Except DErr (List Nat × BCursor) :=
  if c.pos + n ≤ c.data.length then
    .ok ((c.data.drop c.pos).take n, ⟨c.data, c.pos + n⟩)
  else .error .ioError

/-- `read_u8`. -/
def BCursor.readU8 (c : BCursor) : Except DErr (Nat × BCursor) := do
  let (bs, c1) ← c.readN 1
  .ok (leVal bs, c1)

/-- `read_u16::<LittleEndian>`. -/
def BCursor.readU16 (c : BCursor) : Except DErr (Nat × BCursor) := do
  let (bs, c1) ← c.readN 2
  .ok (leVal bs, c1)

/-- `read_u32::<LittleEndian>`. -/
def BCursor.readU32 (c : BCursor) : Except DErr (Nat × BCursor) := do
  let (bs, c1) ← c.readN 4
  .ok (leVal bs, c1)

/-- `seek(SeekFrom::Start(p))` (always succeeds; later reads bound-check). -/
def BCursor.seekTo (c : BCursor) (p : Nat) : BCursor := ⟨c.data, p⟩

/-- `seek(SeekFrom::Current(n))` for a non-negative displacement. -/
def BCursor.skip (c : BCursor) (n : Nat) : BCursor := ⟨c.data, c.pos + n⟩

/-- Read `count` consecutive little-endian `u32` values. -/
def BCursor.readU32List (c : BCursor) : Nat → Except DErr (List Nat × BCursor)
  | 0 => .ok ([], c)
  | count + 1 => do
    let (v, c1) ← c.readU32
    let (vs, c2) ← c1.readU32List count
    .ok (v :: vs, c2)

/-- Wrapping `u32` addition. -/
def add32 (a b : Nat) : Nat := (a + b) % 2 ^ 32

/-- Wrapping `u32` subtraction (release-mode Rust `u32` semantics; the
second operand is a `u32`, i.e. `< 2 ^ 32`). -/
def sub32 (a b : Nat) : Nat := (a % 2 ^ 32 + 2 ^ 32 - b % 2 ^ 32) % 2 ^ 32

/-- Is `b` a UTF-8 continuation byte? -/
def isCont (b : Nat) : Bool := 128 ≤ b && b < 192

/-- RFC 3629 UTF-8 validity of a byte list
(`String::from_utf8` succeeds exactly on valid input). -/
def utf8Valid : List Nat → Bool
  | [] => true
  | b :: rest =>
    if b < 128 then utf8Valid rest
    else if b < 194 then false
    else if b < 224 then
      match rest with
      | b1 :: rest1 => isCont b1 && utf8Valid rest1
      | [] => false
    else if b < 240 then
      match rest with
      | b1 :: b2 :: rest2 =>
        (if b = 224 then (160 ≤ b1 && b1 < 192)
         else if b = 237 then (128 ≤ b1 && b1 < 160)
         else isCont b1) && isCont b2 && utf8Valid rest2
      | _ => false
    else if b < 245 then
      match rest with
      | b1 :: b2 :: b3 :: rest3 =>
        (if b = 240 then (144 ≤ b1 && b1 < 192)
         else if b = 244 then (128 ≤ b1 && b1 < 144)
         else isCont b1) && isCont b2 && isCont b3 && utf8Valid rest3
      | _ => false
    else false

/-- Outcome of a decoder whose Rust code can panic: an `Ok` return, an
`Err` return, or a panic (`todo!`, slice indexing out of bounds, …). -/
inductive DRes (α : Type) where
  | ok (a : α)
  | error (e : DErr)
  | panicked
deriving DecidableEq

instance : Monad DRes where
  pure := .ok
  bind := fun r f =>
    match r with
    | .ok a => f a
    | .error e => .error e
    | .panicked => .panicked

/-- Lift a `?`-propagated `Result` into a panic-aware computation. -/
def DRes.ofExcept : Except DErr α → DRes α
  | .ok a => .ok a
  | .error e => .error e

/-! ### Palette table decoder (`qfg5nod.rs`, `NodDecoder::new`) -/

structure NodDecoder where
  version : Nat
  palette : List (Nat × Nat × Nat)
deriving DecidableEq

def NOD_PALETTE_OFFSET : Nat := 168

/-- `NodDecoder::new`: reads the version byte `nod_data[6]`, then 256 RGB
entries, entry `n` at offsets `168 + n*4`, `168 + n*4 + 1`, `168 + n*4 + 2`
(a 4-byte stride; the fourth byte of each record is skipped).  The source
indexes the slice directly, which panics when the buffer is shorter than
1191 bytes (largest index touched is `168 + 255*4 + 2 = 1190`). -/
def NodDecoder_new (nod_data : List Nat) : DRes NodDecoder :=
  if 1191 ≤ nod_data.length then
    .ok { version := byteAtD nod_data 6,
          palette := (List.range 256).map fun n =>
            (byteAtD nod_data (NOD_PALETTE_OFFSET + n * 4),
             byteAtD nod_data (NOD_PALETTE_OFFSET + n * 4 + 1),
             byteAtD nod_data (NOD_PALETTE_OFFSET + n * 4 + 2)) }
  else .panicked

/-- Palette entry `n` of a decode outcome (`none` when decoding failed). -/
def dresPalEntry : DRes NodDecoder → Nat → Option (Nat × Nat × Nat)
  | .ok d, n => some (d.palette.getD n (0, 0, 0))
  | _, _ => none

/-! ### Exact IEEE-754 binary32 arithmetic (for the RGB555 scaling)

A nonnegative finite `f32` is represented by `k : Nat` with value
`k / 2 ^ 149` (integer multiples of the smallest subnormal `2 ^ (-149)`).
`f32RoundPos n d` rounds the rational `n / d` to the nearest representable
binary32 value (round-to-nearest, ties-to-even) — exactly what Rust's `f32`
division, multiplication and integer-to-`f32` conversion produce on the
nonnegative in-range values used by the palette conversion. -/

/-- Bit length of `n` (`0` for `0`), with explicit fuel (`fuel ≥ n`) for
structural recursion. -/
def bitLenF : Nat → Nat → Nat
  | _, 0 => 0
  | 0, _ + 1 => 0
  | fuel + 1, n + 1 => bitLenF fuel ((n + 1) / 2) + 1

def bitLen (n : Nat) : Nat := bitLenF n n

/-- Round `(q + r / d) / 2 ^ s` (with `r < d`) to an integer,
ties to even. -/
def roundHalfEven (q r d s : Nat) : Nat :=
  let high := q / 2 ^ s
  let lowNum := q % 2 ^ s * d + r
  let den := d * 2 ^ s
  if den < 2 * lowNum then high + 1
  else if 2 * lowNum < den then high
  else if high % 2 = 0 then high else high + 1

/-- Round `n / d` (`d ≠ 0`) to the nearest binary32 value, returned as a
multiple of `2 ^ (-149)`.  Precision is 24 significand bits in the normal
range and fixed `2 ^ (-149)` below it; the inputs used here never reach
the infinite/overflow range. -/
def f32RoundPos (n d : Nat) : Nat :=
  let m := n * 2 ^ 149
  let q := m / d
  let r := m % d
  let bl := bitLen q
  let s := if bl < 25 then 0 else bl - 24
  roundHalfEven q r d s * 2 ^ s

/-- `f32` multiplication of two represented values
(`(a / 2 ^ 149) * (b / 2 ^ 149)` rounded, re-scaled by `2 ^ 149`). -/
def f32Mul (a b : Nat) : Nat := f32RoundPos (a * b) (2 ^ 298)

/-- `f32` division of two represented values. -/
def f32Div (a b : Nat) : Nat := f32RoundPos a b

/-- Exact integer-to-`f32` conversion (all inputs used are `≤ 255`). -/
def f32OfNat (v : Nat) : Nat := f32RoundPos v 1

/-- Rust `as u8` on a nonnegative `f32`: truncate toward zero,
saturating at 255. -/
def f32ToU8 (k : Nat) : Nat := min 255 (k / 2 ^ 149)

/-- One channel of `decode_rgb555_palette`:
`((255.0 / 31.0) * c as f32) as u8`. -/
def scale5to8 (c : Nat) : Nat :=
  f32ToU8 (f32Mul (f32Div (f32OfNat 255) (f32OfNat 31)) (f32OfNat c))

/-! ### Sprite atlas decoder (`qfg5gra.rs`, `GraDecoder::new`) -/

/-- `decode_rgb555_palette`: entry `n` is the little-endian `u16` at
`2n`, split `r = (v >> 10) & 31`, `g = (v >> 5) & 31`, `b = v & 31`,
each scaled by `255/31` in `f32` and truncated to `u8`.  (The source
always passes a 512-byte slice read with `read_exact`.) -/
def decode_rgb555_palette (rgb555 : List Nat) : List (Nat × Nat × Nat) :=
  (List.range 256).map fun n =>
    let v := u16AtD rgb555 (2 * n)
    (scale5to8 (v / 1024 % 32), scale5to8 (v / 32 % 32), scale5to8 (v % 32))

structure GraSprite where
  pixels : List Nat
deriving DecidableEq

structure GraSpriteCollection where
  x_position : Nat
  y_position : Nat
  width : Nat
  height : Nat
  frame_delay : Nat
  sprites : List GraSprite
deriving DecidableEq

structure GraDecoder where
  palette : List (Nat × Nat × Nat)
  sprite_collections : List GraSpriteCollection
deriving DecidableEq

/-- Decode one frame whose data starts at absolute position `pos`:
`let data = &gra_data[pos..]` (panics when `pos > len`), a zero-filled
`width*height` pixel buffer, then the colour-mode match — mode 0 copies
`height*width` bytes (`copy_from_slice` panics when `data` is shorter),
mode 2 runs the RLE codec, and any other mode hits `todo!`, a panic. -/
def decodeFrame (gra_data : List Nat) (pos mode w h : Nat) : DRes (List Nat) :=
  if pos ≤ gra_data.length then
    let data := gra_data.drop pos
    let hw := w * h % 2 ^ 32
    if mode = 0 then
      if hw ≤ data.length then .ok (data.take hw) else .panicked
    else if mode = 2 then
      match decode_rle data (List.replicate hw 0) with
      | some pixels => .ok pixels
      | none => .panicked
    else .panicked
  else .panicked

/-- The per-collection frame loop; each frame seeks to
`offset + frame_offsets[n]` (wrapping `u32` addition). -/
def decodeFrames (gra_data : List Nat) (base mode w h : Nat) :
    List Nat → DRes (List GraSprite)
  | [] => .ok []
  | fo :: fos => do
    let pixels ← decodeFrame gra_data (add32 base fo) mode w h
    let sprites ← decodeFrames gra_data base mode w h fos
    pure ({ pixels := pixels } :: sprites)

/-- Decode one sprite collection located at `offset`. -/
def parseCollection (gra_data : List Nat) (mode offset : Nat) :
    DRes GraSpriteCollection := do
  let c := BCursor.seekTo ⟨gra_data, 0⟩ offset
  let (x_position, c) ← DRes.ofExcept c.readU32
  let (y_position, c) ← DRes.ofExcept c.readU32
  let (width, c) ← DRes.ofExcept c.readU32
  let (height, c) ← DRes.ofExcept c.readU32
  let (num_sprites, c) ← DRes.ofExcept c.readU32
  let (frame_delay, c) ← DRes.ofExcept c.readU32
  let (_flags, c) ← DRes.ofExcept c.readU32
  let (frame_offsets, _) ← DRes.ofExcept (c.readU32List num_sprites)
  let sprites ← decodeFrames gra_data offset mode width height frame_offsets
  pure { x_position := x_position, y_position := y_position,
         width := width, height := height, frame_delay := frame_delay,
         sprites := sprites }

/-- The collection loop of `GraDecoder::new`. -/
def parseCollections (gra_data : List Nat) (mode : Nat) :
    List Nat → DRes (List GraSpriteCollection)
  | [] => .ok []
  | o :: os => do
    let coll ← parseCollection gra_data mode o
    let colls ← parseCollections gra_data mode os
    pure (coll :: colls)

/-- `GraDecoder::new`: colour mode, collection count, a 512-byte RGB555
palette, the collection offset table, then each collection. -/
def GraDecoder_new (gra_data : List Nat) : DRes GraDecoder := do
  let c0 : BCursor := ⟨gra_data, 0⟩
  let (colour_mode, c1) ← DRes.ofExcept c0.readU32
  let (num_collections, c2) ← DRes.ofExcept c1.readU32
  let (rgb555, c3) ← DRes.ofExcept (c2.readN 512)
  let (offsets, _) ← DRes.ofExcept (c3.readU32List num_collections)
  let colls ← parseCollections gra_data colour_mode offsets
  pure { palette := decode_rgb555_palette rgb555, sprite_collections := colls }

/-! ### Concrete example buffers -/

/-- A 1200-byte buffer with `byte i = i % 256` (for the palette-table
layout check). -/
def exNod : List Nat := (List.range 1200).map fun n => n % 256

/-- A minimal GRA buffer with colour mode `m`: one collection at offset 524
(x=5, y=6, width=2, height=2, one frame, delay 0, flags 0), whose single
frame offset 32 points at the end of the buffer. -/
def exGraMode (m : Nat) : List Nat :=
  u32le m ++ u32le 1 ++ List.replicate 512 0 ++ u32le 524 ++
    (u32le 5 ++ u32le 6 ++ u32le 2 ++ u32le 2 ++ u32le 1 ++ u32le 0 ++
     u32le 0 ++ u32le 32)

/-- A mode-2 GRA buffer like `exGraMode 2` whose frame data `[2, 9]` is an
RLE stream that under-fills the 2×2 pixel buffer. -/
def exGra10 : List Nat := exGraMode 2 ++ [2, 9]

/-- The decoded form of `exGra10`. -/
def exGra10Model : GraDecoder :=
  { palette := decode_rgb555_palette (List.replicate 512 0),
    sprite_collections :=
      [{ x_position := 5, y_position := 6, width := 2, height := 2,
         frame_delay := 0, sprites := [{ pixels := [9, 9, 0, 0] }] }] }

/-! ### Animation decoder (`qfg5anm.rs`, `AnmDecoder::new`)

`f32` fields are kept as their raw little-endian 32-bit patterns (the
source reads them with `read_f32` purely to store them; 4 bytes each). -/

structure AnmBlock where
  translation : List Nat
  rotation : List Nat
deriving DecidableEq

structure AnmAnim where
  blocks : List AnmBlock
deriving DecidableEq

structure AnmDecoder where
  name : List Nat
  delay : Nat
  anims : List AnmAnim
deriving DecidableEq

/-- One animation block: two `u32` guard fields that must equal 1 and 0,
then 3 translation and 9 rotation floats. -/
def parseAnmBlock (c : BCursor) : Except DErr (AnmBlock × BCursor) := do
  let (a, c) ← c.readU32
  let (b, c) ← c.readU32
  if a ≠ 1 ∨ b ≠ 0 then .error (.invalidData "unexpected a b values")
  else do
    let (tr, c) ← c.readU32List 3
    let (rot, c) ← c.readU32List 9
    .ok ({ translation := tr, rotation := rot }, c)

def parseAnmBlocks : BCursor → Nat → Except DErr (List AnmBlock × BCursor)
  | c, 0 => .ok ([], c)
  | c, k + 1 => do
    let (b, c1) ← parseAnmBlock c
    let (bs, c2) ← parseAnmBlocks c1 k
    .ok (b :: bs, c2)

def parseAnmAnims (numBlocks : Nat) :
    BCursor → Nat → Except DErr (List AnmAnim × BCursor)
  | c, 0 => .ok ([], c)
  | c, k + 1 => do
    let (blocks, c1) ← parseAnmBlocks c numBlocks
    let (rest, c2) ← parseAnmAnims numBlocks c1 k
    .ok ({ blocks := blocks } :: rest, c2)

/-- The header-and-blocks part of `AnmDecoder::new`, returning the decoded
value together with the final cursor position. -/
def parseAnmStruct (anm_data : List Nat) : Except DErr (AnmDecoder × Nat) := do
  let c : BCursor := ⟨anm_data, 0⟩
  let (magic, c) ← c.readU32
  if magic ≠ 0x564f5838 ∧ magic ≠ 0x5452494d then
    .error (.invalidData "invalid anm magic")
  else do
    let (header_size, c) ← c.readU32
    if header_size ≠ 36 then .error (.invalidData "invalid header size")
    else do
      let (name, c) ← c.readN 16
      if utf8Valid name then do
        let (num_anims, c) ← c.readU32
        let (num_anim_blocks, c) ← c.readU32
        let (delay, c) ← c.readU32
        let (anims, c) ← parseAnmAnims num_anim_blocks c num_anims
        .ok ({ name := name, delay := delay, anims := anims }, c.pos)
      else .error .utf8Error

/-- `AnmDecoder::new`: parse the declared structure, then require the
cursor to sit exactly at end-of-buffer. -/
def AnmDecoder_new (anm_data : List Nat) : Except DErr AnmDecoder := do
  let (res, pos) ← parseAnmStruct anm_data
  if pos ≠ anm_data.length then
    .error (.invalidData "got extra data after decoding")
  else .ok res

/-- A minimal valid ANM buffer: magic `0x564f5838`, header size 36, a
16-byte zero name, zero animations, delay 0 — 36 bytes in total. -/
def exAnm : List Nat :=
  u32le 0x564f5838 ++ u32le 36 ++ List.replicate 16 0 ++ u32le 0 ++
    u32le 0 ++ u32le 0

/-- `exAnm` with one trailing byte. -/
def exAnmExtra : List Nat := exAnm ++ [0]

/-! ### Mesh model decoder (`qfg5mdl.rs`, `Qfg5Model::new`)

`f32` fields (the 20 skipped floats, vertices, texcoords, faces with
normals, lighting) are kept as raw byte blocks of the exact record sizes
the source reads sequentially (12, 8, 40 and 16 bytes per record): the
reads advance the cursor identically and fail on the same truncations. -/

structure SubMesh where
  name : List Nat
  vertexBytes : List Nat
  texcoordBytes : List Nat
  faceBytes : List Nat
  lightingBytes : List Nat
deriving DecidableEq

structure SubBitmap where
  width : Nat
  height : Nat
  bitmap : List Nat
deriving DecidableEq

structure Qfg5Model where
  name : List Nat
  palette : List Nat
  submeshes : List SubMesh
  subbitmaps : List SubBitmap
deriving DecidableEq

/-- Is an `Except` outcome an `Ok`? -/
def eIsOk {ε α : Type} : Except ε α → Bool
  | .ok _ => true
  | .error _ => false

/-- Rust `as u32` on an `f32` given by its raw bit pattern: truncate
toward zero, saturating into the `u32` range; NaN and negative values
give 0, `+∞` and too-large values give `u32::MAX`. -/
def f32ToU32 (bits : Nat) : Nat :=
  let sign := bits / 2 ^ 31 % 2
  let exp := bits / 2 ^ 23 % 2 ^ 8
  let frac := bits % 2 ^ 23
  if exp = 255 then (if frac ≠ 0 then 0 else if sign = 1 then 0 else 2 ^ 32 - 1)
  else if sign = 1 then 0
  else if exp < 127 then 0
  else
    let m := 2 ^ 23 + frac
    if 150 ≤ exp then min (2 ^ 32 - 1) (m * 2 ^ (exp - 150))
    else m / 2 ^ (150 - exp)

/-- The per-submesh body of `Qfg5Model::new` after `seek(Start(pos))`:
16-byte name (UTF-8-checked), 20 skipped `f32`s (80 bytes), the three
counts at `pos+96/100/104`, the four cross-checked offset fields
(`vlist_addr` at `pos+108`, `r1` at `pos+112`, `r2` at `pos+116`, `r3` at
`pos+120`, each compared right after its read, in wrapping `u32`
arithmetic), then the vertex/texcoord/face/lighting records. -/
def parseSubMesh (data : List Nat) (pos : Nat) :
    Except DErr (SubMesh × BCursor) := do
  let c : BCursor := ⟨data, pos⟩
  let (name, c) ← c.readN 16
  if utf8Valid name then do
    let (_unk, c) ← c.readN 80
    let (num_vertices, c) ← c.readU32
    let (num_uv_coords, c) ← c.readU32
    let (num_faces, c) ← c.readU32
    let (vlist_addr, c) ← c.readU32
    if vlist_addr ≠ 0x7c then
      .error (.invalidData "unexpected vertex list address")
    else do
      let (r1, c) ← c.readU32
      if r1 ≠ (vlist_addr + 12 * num_vertices) % 2 ^ 32 then
        .error (.invalidData "unexpected r1")
      else do
        let (r2, c) ← c.readU32
        if r2 ≠ (r1 + 8 * num_uv_coords) % 2 ^ 32 then
          .error (.invalidData "unexpected r2")
        else do
          let (r3, c) ← c.readU32
          if r3 ≠ (r2 + 40 * num_faces) % 2 ^ 32 then
            .error (.invalidData "unexpected r3")
          else do
            let (vertexBytes, c) ← c.readN (12 * num_vertices)
            let (texcoordBytes, c) ← c.readN (8 * num_uv_coords)
            let (faceBytes, c) ← c.readN (40 * num_faces)
            let (lightingBytes, c) ← c.readN (16 * num_vertices)
            .ok (SubMesh.mk name vertexBytes texcoordBytes faceBytes
              lightingBytes, c)
  else .error .utf8Error

/-- The submesh loop: each iteration seeks to its own table offset, so the
cursor does not carry over between submeshes. -/
def parseSubMeshes (data : List Nat) : List Nat → Except DErr (List SubMesh)
  | [] => .ok []
  | o :: os => do
    let (sm, _) ← parseSubMesh data o
    let sms ← parseSubMeshes data os
    .ok (sm :: sms)

/-- One texture-atlas record: `width`/`height` as `f32` cast to `u32`,
the redundant power-of-two and minus-one fields with their four fatal
checks, then `width*height` pixel bytes (`u32` product, wrapping). -/
def parseSubBitmap (c : BCursor) : Except DErr (SubBitmap × BCursor) := do
  let (widthBits, c) ← c.readU32
  let (heightBits, c) ← c.readU32
  let (width_pow_2, c) ← c.readU32
  let (height_pow_2, c) ← c.readU32
  let (width_minus_1, c) ← c.readU32
  let (height_minus_1, c) ← c.readU32
  if (width_minus_1 + 1) % 2 ^ 32 ≠ f32ToU32 widthBits then
    .error (.invalidData "subbitmap width corrupt")
  else if (height_minus_1 + 1) % 2 ^ 32 ≠ f32ToU32 heightBits then
    .error (.invalidData "subbitmap height corrupt")
  else if 2 ^ (width_pow_2 % 32) % 2 ^ 32 ≠ f32ToU32 widthBits then
    .error (.invalidData "subbitmap width pow corrupt")
  else if 2 ^ (height_pow_2 % 32) % 2 ^ 32 ≠ f32ToU32 heightBits then
    .error (.invalidData "subbitmap height pow corrupt")
  else do
    let width := (width_minus_1 + 1) % 2 ^ 32
    let height := (height_minus_1 + 1) % 2 ^ 32
    let (bitmap, c) ← c.readN (width * height % 2 ^ 32)
    .ok ({ width := width, height := height, bitmap := bitmap }, c)

def parseSubBitmapList : BCursor → Nat → Except DErr (List SubBitmap × BCursor)
  | c, 0 => .ok ([], c)
  | c, k + 1 => do
    let (sb, c1) ← parseSubBitmap c
    let (sbs, c2) ← parseSubBitmapList c1 k
    .ok (sb :: sbs, c2)

/-- The texture-atlas section at `bitmap_texture_offset`: a count that
must be divisible by 4 (and is divided by 4), a skip of the extra table
entries when more than one atlas is present, then the atlas records. -/
def parseSubBitmaps (data : List Nat) (bto : Nat) :
    Except DErr (List SubBitmap) := do
  let c : BCursor := ⟨data, bto⟩
  let (numRaw, c) ← c.readU32
  if numRaw % 4 ≠ 0 then .error (.invalidData "corrupt number of subbitmaps")
  else do
    let num := numRaw / 4
    let c := if 1 < num then c.skip ((num - 1) * 4) else c
    let (sbs, _) ← parseSubBitmapList c num
    .ok sbs

/-- The `Qfg5Model::new` header: skip 12 bytes, 16-byte name (UTF-8),
`u16` submesh count at byte 28, skip 15, the 1019-byte palette, the
texture-atlas offset at byte 1064, then the submesh offset table at byte
1068. -/
def parseMdlHeader (data : List Nat) :
    Except DErr (List Nat × List Nat × Nat × List Nat) := do
  let c : BCursor := ⟨data, 0⟩
  let c := c.skip 0xc
  let (name, c) ← c.readN 16
  if utf8Valid name then do
    let (num_submeshes, c) ← c.readU16
    let c := c.skip 0xf
    let (palette, c) ← c.readN 1019
    let (bto, c) ← c.readU32
    let (offsets, _) ← c.readU32List num_submeshes
    .ok (name, palette, bto, offsets)
  else .error .utf8Error

/-- `Qfg5Model::new`: header, the submeshes (each sought individually),
then the texture atlases. -/
def Qfg5Model_new (data : List Nat) : Except DErr Qfg5Model := do
  let (name, palette, bto, offsets) ← parseMdlHeader data
  let submeshes ← parseSubMeshes data offsets
  let subbitmaps ← parseSubBitmaps data bto
  .ok (Qfg5Model.mk name palette submeshes subbitmaps)

/-- A minimal valid model buffer: one submesh at offset 1072 with zero
vertices/texcoords/faces (so `vlist = r1 = r2 = r3 = 0x7c`), and one 1×1
texture atlas at offset 1196 (width/height `1.0f32`). -/
def exMdl : List Nat :=
  List.replicate 12 0 ++ List.replicate 16 0 ++ u16le 1 ++
    List.replicate 15 0 ++ List.replicate 1019 0 ++ u32le 1196 ++
    u32le 1072 ++
    (List.replicate 16 0 ++ List.replicate 80 0 ++ u32le 0 ++ u32le 0 ++
     u32le 0 ++ u32le 124 ++ u32le 124 ++ u32le 124 ++ u32le 124) ++
    (u32le 4 ++ u32le 0x3f800000 ++ u32le 0x3f800000 ++ u32le 0 ++
     u32le 0 ++ u32le 0 ++ u32le 0 ++ [7])

/-- A 1920-byte model whose single offset-table entry (bytes 1068–1071)
points at a submesh record at offset 952, so that record's stored `r2`
field (`952 + 116 = 1068`) occupies exactly the table entry: the record
has 1 vertex, 102 texcoords and 0 faces, giving `r1 = 136` (aliasing
`bitmap_texture_offset`) and `r2 = r3 = 952`. A second fully-zero-count
record (`vlist = r1 = r2 = r3 = 124`) is embedded at offset 184 inside
the palette region, and the texture-atlas section at offset 136 declares
zero atlases. -/
def exMdl2 : List Nat :=
  List.replicate 28 0 ++ u16le 1 ++ List.replicate 262 0 ++
    u32le 124 ++ u32le 124 ++ u32le 124 ++ u32le 124 ++
    List.replicate 740 0 ++
    u32le 1 ++ u32le 102 ++ u32le 0 ++ u32le 124 ++
    u32le 136 ++ u32le 952 ++ u32le 952 ++
    List.replicate 844 0

/-! ### Archive container decoder (`qfg5spk.rs`, `SpkArchive::new`)

The archive file is a byte list; `read_exact_at` is a positional read.
Filenames are kept as their UTF-8 byte lists (`String::from_utf8`
preserves the bytes); invalid UTF-8 falls back to the synthesized
`<corrupt-N>` name. -/

structure SpkItem where
  filename : List Nat
  offset : Nat
  length : Nat
deriving DecidableEq

/-- ASCII decimal digits of `n` (most significant first), with explicit
fuel (`fuel ≥ n`) for structural recursion. -/
def natDecimalF : Nat → Nat → List Nat
  | _, 0 => []
  | 0, _ + 1 => []
  | fuel + 1, n + 1 => natDecimalF fuel ((n + 1) / 10) ++ [48 + (n + 1) % 10]

def natDecimal (n : Nat) : List Nat :=
  if n = 0 then [48] else natDecimalF n n

/-- The bytes of `format!("<corrupt-{}>", n)`. -/
def corruptName (n : Nat) : List Nat :=
  [60, 99, 111, 114, 114, 117, 112, 116, 45] ++ natDecimal n ++ [62]

/-- The central-directory record loop of `SpkArchive::new`: skip 20 bytes,
compressed and decompressed sizes (which must agree), the filename
length, skip 10, the relative item location, the entry offset
`local_file_start + item_location + 0x42 + fname_len` (wrapping `u32`
additions), then the filename bytes. -/
def readSpkItems (lfs : Nat) :
    BCursor → Nat → Nat → Except DErr (List SpkItem × BCursor)
  | c, _, 0 => .ok ([], c)
  | c, idx, k + 1 => do
    let c := c.skip 20
    let (compr_size, c) ← c.readU32
    let (decompr_size, c) ← c.readU32
    if compr_size ≠ decompr_size then
      .error (.invalidData "compressed entries are not supported")
    else do
      let (fname_len, c) ← c.readU32
      let c := c.skip 10
      let (item_location, c) ← c.readU32
      let offset := add32 (add32 (add32 lfs item_location) 0x42) fname_len
      let (fname, c) ← c.readN fname_len
      let filename := if utf8Valid fname then fname else corruptName idx
      let (rest, c2) ← readSpkItems lfs c (idx + 1) k
      .ok (SpkItem.mk filename offset decompr_size :: rest, c2)

/-- `SpkArchive::new`: the 22-byte end-of-directory trailer (magic, id,
duplicated entry counts, the two size fields `a`, `b`), the derived
`local_file_start` and `central_directory_offset` (wrapping `u32`
subtractions on `file_len as u32`), then the directory records. -/
def SpkArchive_new (file : List Nat) : Except DErr (List SpkItem) := do
  let fileLen := file.length % 2 ^ 32
  if file.length < 22 then .error .ioError
  else do
    let c : BCursor := ⟨file, file.length - 22⟩
    let (pk, c) ← c.readU16
    if pk ≠ 0x4b50 then
      .error (.invalidData "invalid PK magic in end-of-directory record")
    else do
      let (id, c) ← c.readU16
      if id ≠ 0x0705 then
        .error (.invalidData "invalid PK id in end-of-directory record")
      else do
        let c := c.skip 4
        let (num_files, c) ← c.readU16
        let (num_files_dup, c) ← c.readU16
        if num_files ≠ num_files_dup then
          .error (.invalidData "file counts do not match")
        else do
          let (a, c) ← c.readU32
          let (b, _) ← c.readU32
          let local_file_start := sub32 (sub32 (sub32 fileLen a) b) 0x16
          let central_directory_offset := sub32 (sub32 fileLen a) 0x16
          let (items, _) ← readSpkItems local_file_start
            ⟨file, central_directory_offset⟩ 0 num_files
          .ok items

/-- `SpkArchive::read_item`: one positional `read_exact_at` of
`item.length` bytes at `item.offset`, failing past end-of-file. -/
def read_item (file : List Nat) (item : SpkItem) : Except DErr (List Nat) :=
  if item.offset + item.length ≤ file.length then
    .ok ((file.drop item.offset).take item.length)
  else .error .ioError

/-- A synthesized central-directory record: 20 leading bytes, equal
compressed/decompressed size, 10 middle bytes, item location, filename. -/
structure SpkRec where
  pre : List Nat
  size : Nat
  mid : List Nat
  loc : Nat
  fname : List Nat
deriving DecidableEq

/-- Well-formedness of a synthesized record: field widths as the decoder
reads them, values in `u32` range. -/
def SpkRec.Wf (r : SpkRec) : Prop :=
  r.pre.length = 20 ∧ r.mid.length = 10 ∧ r.size < 2 ^ 32 ∧
    r.loc < 2 ^ 32 ∧ r.fname.length < 2 ^ 32

/-- The byte encoding of one directory record. -/
def encodeRec (r : SpkRec) : List Nat :=
  r.pre ++ u32le r.size ++ u32le r.size ++ u32le r.fname.length ++ r.mid ++
    u32le r.loc ++ r.fname

/-- The byte encoding of the whole central directory. -/
def encodeDir (recs : List SpkRec) : List Nat := (recs.map encodeRec).flatten

/-- The 22-byte end-of-directory trailer with entry count `n` and size
fields `a`, `b`. -/
def spkTrailer (n a b : Nat) : List Nat :=
  [0x50, 0x4b, 0x05, 0x07] ++ List.replicate 4 0 ++ u16le n ++ u16le n ++
    u32le a ++ u32le b ++ [0, 0]

/-- A full synthesized archive: body, central directory, trailer
(`a` = directory length). -/
def spkFile (body : List Nat) (recs : List SpkRec) (b : Nat) : List Nat :=
  body ++ encodeDir recs ++ spkTrailer recs.length (encodeDir recs).length b

/-- The items the decoder is expected to return for `recs`, with
`local_file_start = lfs`, starting at entry index `idx`. -/
def spkExpected (lfs : Nat) : Nat → List SpkRec → List SpkItem
  | _, [] => []
  | idx, r :: rs =>
      SpkItem.mk (if utf8Valid r.fname then r.fname else corruptName idx)
        (add32 (add32 (add32 lfs r.loc) 0x42) r.fname.length) r.size ::
        spkExpected lfs (idx + 1) rs

/-! ### Dialogue text cipher (`qfg5qgm.rs`, `demangle_text`) -/

/-- `u32::rotate_right(15)` (on values `< 2 ^ 32`). -/
def rotr15 (v : Nat) : Nat := v / 2 ^ 15 + v % 2 ^ 15 * 2 ^ 17

/-- `u32::rotate_left(15)` (on values `< 2 ^ 32`). -/
def rotl15 (v : Nat) : Nat := v % 2 ^ 17 * 2 ^ 15 + v / 2 ^ 17

/-- `demangle_text`: each full little-endian 32-bit word is XORed with
`0xf1acc1d` and rotated right 15 bits; the trailing (fewer than 4) bytes
are each bit-inverted.  Output is the list of pushed char code points,
which for byte input are byte values. -/
def demangle_text : List Nat → List Nat
  | b0 :: b1 :: b2 :: b3 :: rest =>
      u32le (rotr15 (leVal4 b0 b1 b2 b3 ^^^ 0xf1acc1d)) ++ demangle_text rest
  | rest => rest.map fun b => 255 - b

/-- The inverse transform the spec names `mangle`: rotate each little-endian
32-bit word left by 15 bits, then XOR with `0xf1acc1d` (trailing bytes
bit-inverted).  Built from the spec's wording — the source repository only
contains the decoder `demangle_text`. -/
def mangle_text : List Nat → List Nat
  | b0 :: b1 :: b2 :: b3 :: rest =>
      u32le (rotl15 (leVal4 b0 b1 b2 b3) ^^^ 0xf1acc1d) ++ mangle_text rest
  | rest => rest.map fun b => 255 - b

/-! ## Theorems -/

/-- Unfolding lemma for one iteration of the RLE main loop. -/
theorem rleLoopF_cons (fuel : Nat) (c : Nat) (rest output : List Nat) (oi : Nat) :
    rleLoopF (fuel + 1) (c :: rest) output oi =
    if c = 0 then rleLoopF fuel rest output oi
    else if c < 128 then
      match rest with
      | [] => none
      | v :: rest1 =>
        match repeatLoop output oi v c with
        | none => none
        | some (output1, oi1) => rleLoopF fuel rest1 output1 oi1
    else
      match literalLoop output oi rest (256 - c) with
      | none => none
      | some (output1, oi1) => rleLoopF fuel (rest.drop (256 - c)) output1 oi1 := rfl

theorem set_append_cons (xs zs : List Nat) (y b : Nat) :
    (xs ++ y :: zs).set xs.length b = xs ++ b :: zs := by
  induction xs with
  | nil => simp
  | cons x xs ih => simp [List.set, ih]

theorem repeatLoop_exact (count : Nat) :
    ∀ (old pre suf : List Nat) (v : Nat), old.length = count →
      repeatLoop (pre ++ (old ++ suf)) pre.length v count
        = some (pre ++ (List.replicate count v ++ suf), pre.length + count) := by
  induction count with
  | zero =>
    intro old pre suf v hold
    have : old = [] := List.eq_nil_of_length_eq_zero hold
    subst this
    simp [repeatLoop]
  | succ k ih =>
    intro old pre suf v hold
    cases old with
    | nil => simp at hold
    | cons o old1 =>
      have hlen : old1.length = k := by simpa using hold
      have hlt : pre.length < (pre ++ (o :: old1 ++ suf)).length := by
        simp
      rw [repeatLoop]
      simp only [hlt, if_pos]
      have hset : (pre ++ (o :: old1 ++ suf)).set pre.length v
          = pre ++ v :: (old1 ++ suf) := set_append_cons pre (old1 ++ suf) o v
      rw [hset]
      by_cases hend : old1.length + suf.length = 0
      · have ho1 : old1 = [] := by
          cases old1 with
          | nil => rfl
          | cons a t => simp at hend
        have hs : suf = [] := by
          cases suf with
          | nil => rfl
          | cons a t => simp [ho1] at hend
        subst ho1; subst hs
        have hk : k = 0 := by simpa using hlen.symm
        subst hk
        simp [List.replicate]
      · have hne : ¬ (pre.length + 1 = (pre ++ v :: (old1 ++ suf)).length) := by
          simp only [List.length_append, List.length_cons]
          omega
        simp only [hne, if_neg]
        have hx : pre ++ v :: (old1 ++ suf) = (pre ++ [v]) ++ (old1 ++ suf) := by
          simp
        have hpos : pre.length + 1 = (pre ++ [v]).length := by simp
        rw [hx, hpos, ih old1 (pre ++ [v]) suf v hlen]
        simp [List.replicate_succ, Nat.add_assoc, Nat.add_comm 1 k]

theorem literalLoop_exact (c : List Nat) :
    ∀ (old pre suf tail : List Nat), old.length = c.length →
      literalLoop (pre ++ (old ++ suf)) pre.length (c ++ tail) c.length
        = some (pre ++ (c ++ suf), pre.length + c.length) := by
  induction c with
  | nil =>
    intro old pre suf tail hold
    have : old = [] := List.eq_nil_of_length_eq_zero (by simpa using hold)
    subst this
    simp [literalLoop]
  | cons b c1 ih =>
    intro old pre suf tail hold
    cases old with
    | nil => simp at hold
    | cons o old1 =>
      have hlen : old1.length = c1.length := by simpa using hold
      have hlt : pre.length < (pre ++ (o :: old1 ++ suf)).length := by simp
      rw [show ((b :: c1) ++ tail) = b :: (c1 ++ tail) from rfl]
      rw [show (b :: c1).length = c1.length + 1 from by simp]
      rw [literalLoop]
      simp only [hlt, if_pos]
      have hset : (pre ++ (o :: old1 ++ suf)).set pre.length b
          = pre ++ b :: (old1 ++ suf) := set_append_cons pre (old1 ++ suf) o b
      rw [hset]
      by_cases hend : old1.length + suf.length = 0
      · have ho1 : old1 = [] := by
          cases old1 with
          | nil => rfl
          | cons a t => simp at hend
        have hs : suf = [] := by
          cases suf with
          | nil => rfl
          | cons a t => simp [ho1] at hend
        subst ho1; subst hs
        have hc1 : c1 = [] := List.eq_nil_of_length_eq_zero (by simpa using hlen.symm)
        subst hc1
        simp
      · have hne : ¬ (pre.length + 1 = (pre ++ b :: (old1 ++ suf)).length) := by
          simp only [List.length_append, List.length_cons]
          omega
        simp only [hne, if_neg]
        have hx : pre ++ b :: (old1 ++ suf) = (pre ++ [b]) ++ (old1 ++ suf) := by
          simp
        have hpos : pre.length + 1 = (pre ++ [b]).length := by simp
        rw [hx, hpos, ih old1 (pre ++ [b]) suf tail hlen]
        simp [Nat.add_assoc, Nat.add_comm 1 c1.length]

theorem rleLoopF_literalEncoding (input bytes : List Nat)
    (h : IsLiteralEncoding input bytes) :
    ∀ (fuel : Nat), input.length ≤ fuel → ∀ pre suf : List Nat,
      suf.length = bytes.length →
      rleLoopF fuel input (pre ++ suf) pre.length = some (pre ++ bytes) := by
  induction h with
  | nil =>
    intro fuel _ pre suf hlen
    have : suf = [] := List.eq_nil_of_length_eq_zero hlen
    subst this
    cases fuel <;> simp [rleLoopF]
  | chunk c rest restBytes h1 h2 h ih =>
    intro fuel hfuel pre suf hlen
    simp only [List.length_cons, List.length_append] at hfuel
    cases fuel with
    | zero => omega
    | succ fuel =>
      simp only [List.length_append] at hlen
      have hc0 : ¬ ((256 - c.length) = 0) := by omega
      have hc1 : ¬ ((256 - c.length) < 128) := by omega
      have hcount : 256 - (256 - c.length) = c.length := by omega
      have hlen1 : (suf.take c.length).length = c.length := by
        simp
        omega
      have hlen2 : (suf.drop c.length).length = restBytes.length := by
        simp
        omega
      have hstep := literalLoop_exact c (suf.take c.length) pre (suf.drop c.length)
        rest hlen1
      have hdropc : (c ++ rest).drop c.length = rest := List.drop_left c rest
      have hrec := ih fuel (by omega) (pre ++ c) (suf.drop c.length) hlen2
      conv_lhs =>
        rw [show suf = suf.take c.length ++ suf.drop c.length from
          (List.take_append_drop _ _).symm]
      rw [rleLoopF_cons]
      simp only [hc0, if_false, hc1, ite_false, hcount, hstep, hdropc]
      rw [show pre ++ (c ++ suf.drop c.length) = (pre ++ c) ++ suf.drop c.length from
        by simp]
      rw [show pre.length + c.length = (pre ++ c).length from by simp]
      rw [hrec]
      simp

/-- C1: `decode_rle` run semantics.  (1) Decoding a literal-run encoding of
`L` bytes into an output buffer of length `L` writes exactly those bytes in
order.  (2) Decoding the two-byte input `[N, V]` (`1 ≤ N ≤ 127`) into an
output of length at least `N` writes exactly `N` copies of `V` at the start
of the output, leaving the rest untouched. -/
theorem C1_decode_rle_run_semantics :
    (∀ input bytes output : List Nat, IsLiteralEncoding input bytes →
        output.length = bytes.length → decode_rle input output = some bytes) ∧
    (∀ (N V : Nat) (output : List Nat), 1 ≤ N → N ≤ 127 → N ≤ output.length →
        decode_rle [N, V] output = some (List.replicate N V ++ output.drop N)) := by
  constructor
  · intro input bytes output henc hlen
    have := rleLoopF_literalEncoding input bytes henc input.length le_rfl [] output
      (by simpa using hlen)
    simpa [decode_rle] using this
  · intro N V output h1 h127 hle
    have hN0 : ¬ (N = 0) := by omega
    have hlen1 : (output.take N).length = N := by simp; omega
    have hrep := repeatLoop_exact N (output.take N) [] (output.drop N) V hlen1
    simp only [List.nil_append, List.length_nil] at hrep
    rw [decode_rle]
    conv_lhs => rw [show output = output.take N ++ output.drop N from
      (List.take_append_drop _ _).symm]
    have hlt : N < 128 := by omega
    rw [show ([N, V] : List Nat).length = 1 + 1 from rfl]
    rw [rleLoopF_cons]
    simp only [hN0, if_false, ite_false, if_pos hlt, hrep]
    simp [rleLoopF]

/-- C1 witness: a one-chunk literal encoding of `[10, 20, 30]` (control byte
`253 = 256 - 3`) and the repeat encoding `[3, 7]` on a 5-byte output. -/
theorem C1_decode_rle_run_semantics_witness :
    decode_rle [253, 10, 20, 30] [9, 9, 9] = some [10, 20, 30] ∧
    decode_rle [3, 7] [0, 0, 0, 0, 0] = some [7, 7, 7, 0, 0] := by
  constructor
  · have h : IsLiteralEncoding [253, 10, 20, 30] [10, 20, 30] := by
      have := IsLiteralEncoding.chunk [10, 20, 30] [] [] (by decide) (by decide)
        IsLiteralEncoding.nil
      simpa using this
    exact C1_decode_rle_run_semantics.1 _ _ _ h rfl
  · have := C1_decode_rle_run_semantics.2 3 7 [0, 0, 0, 0, 0] (by decide) (by decide)
      (by decide)
    simpa using this

/-- C2 (code-bug exhibit): `decode_rle` does *not* ignore trailing input
once the output buffer is full — the `break` leaves only the inner loop, and
the next nonzero control byte causes an out-of-bounds write (a panic,
modelled as `none`).  Likewise a truncated repeat run reads `data[n+1]` out
of bounds instead of under-filling the output without error. -/
theorem C2_decode_rle_panics :
    decode_rle [1, 42, 1, 42] [0] = none ∧ decode_rle [5] [0, 0, 0] = none := by
  constructor
  · rfl
  · rfl

/-! ### Dialogue text cipher round-trip (C7) -/

theorem leVal4_lt (b0 b1 b2 b3 : Nat) (h0 : b0 < 256) (h1 : b1 < 256)
    (h2 : b2 < 256) (h3 : b3 < 256) : leVal4 b0 b1 b2 b3 < 2 ^ 32 := by
  simp only [leVal4]
  omega

theorem u32le_leVal4 (b0 b1 b2 b3 : Nat) (h0 : b0 < 256) (h1 : b1 < 256)
    (h2 : b2 < 256) (h3 : b3 < 256) :
    u32le (leVal4 b0 b1 b2 b3) = [b0, b1, b2, b3] := by
  simp only [u32le, leVal4, List.cons.injEq, and_true]
  omega

theorem rotr15_rotl15 (v : Nat) (hv : v < 2 ^ 32) : rotr15 (rotl15 v) = v := by
  simp only [rotr15, rotl15]
  omega

theorem rotl15_lt (v : Nat) (hv : v < 2 ^ 32) : rotl15 v < 2 ^ 32 := by
  simp only [rotl15]
  omega

theorem leVal4_u32le (w : Nat) (hw : w < 2 ^ 32) :
    leVal4 (w % 256) (w / 256 % 256) (w / 65536 % 256) (w / 16777216 % 256) = w := by
  simp only [leVal4]
  omega

/-- Unfolding lemma for `demangle_text` on a full word. -/
theorem demangle_text_cons (b0 b1 b2 b3 : Nat) (rest : List Nat) :
    demangle_text (b0 :: b1 :: b2 :: b3 :: rest) =
      u32le (rotr15 (leVal4 b0 b1 b2 b3 ^^^ 0xf1acc1d)) ++ demangle_text rest := rfl

/-- Unfolding lemma for `mangle_text` on a full word. -/
theorem mangle_text_cons (b0 b1 b2 b3 : Nat) (rest : List Nat) :
    mangle_text (b0 :: b1 :: b2 :: b3 :: rest) =
      u32le (rotl15 (leVal4 b0 b1 b2 b3) ^^^ 0xf1acc1d) ++ mangle_text rest := rfl

theorem demangle_mangle (text : List Nat) (hb : ∀ b ∈ text, b < 256)
    (h4 : text.length % 4 = 0) : demangle_text (mangle_text text) = text := by
  match text with
  | [] => rfl
  | [a] => simp at h4
  | [a, b] => simp at h4
  | [a, b, c] => simp at h4
  | b0 :: b1 :: b2 :: b3 :: rest =>
    have hb0 : b0 < 256 := hb b0 (by simp)
    have hb1 : b1 < 256 := hb b1 (by simp)
    have hb2 : b2 < 256 := hb b2 (by simp)
    have hb3 : b3 < 256 := hb b3 (by simp)
    have hrest : ∀ x ∈ rest, x < 256 := fun x hx => hb x (by simp [hx])
    have h4r : rest.length % 4 = 0 := by simp at h4; omega
    have hrec := demangle_mangle rest hrest h4r
    have hv : leVal4 b0 b1 b2 b3 < 2 ^ 32 := leVal4_lt _ _ _ _ hb0 hb1 hb2 hb3
    have hM : rotl15 (leVal4 b0 b1 b2 b3) ^^^ 0xf1acc1d < 2 ^ 32 :=
      Nat.xor_lt_two_pow (rotl15_lt _ hv) (by norm_num)
    rw [mangle_text_cons]
    rw [show u32le (rotl15 (leVal4 b0 b1 b2 b3) ^^^ 0xf1acc1d) ++ mangle_text rest
        = ((rotl15 (leVal4 b0 b1 b2 b3) ^^^ 0xf1acc1d) % 256)
          :: ((rotl15 (leVal4 b0 b1 b2 b3) ^^^ 0xf1acc1d) / 256 % 256)
          :: ((rotl15 (leVal4 b0 b1 b2 b3) ^^^ 0xf1acc1d) / 65536 % 256)
          :: ((rotl15 (leVal4 b0 b1 b2 b3) ^^^ 0xf1acc1d) / 16777216 % 256)
          :: mangle_text rest from rfl]
    rw [demangle_text_cons]
    rw [leVal4_u32le _ hM]
    rw [Nat.xor_assoc, Nat.xor_self, Nat.xor_zero]
    rw [rotr15_rotl15 _ hv]
    rw [u32le_leVal4 _ _ _ _ hb0 hb1 hb2 hb3, hrec]
    rfl

/-- C7: dialogue text cipher round-trip.  For every byte buffer whose length
is a multiple of 4, `demangle_text (mangle_text text) = text`, where
`mangle_text` rotates each little-endian 32-bit word left 15 bits and XORs
it with `0xf1acc1d`, and `demangle_text` (the decoder) XORs with `0xf1acc1d`
then rotates right 15 bits. -/
theorem C7_qgm_cipher_roundtrip (text : List Nat) (hb : ∀ b ∈ text, b < 256)
    (h4 : text.length % 4 = 0) : demangle_text (mangle_text text) = text :=
  demangle_mangle text hb h4

/-- C7 witness at the concrete buffer `[1, 2, 3, 4]`. -/
theorem C7_qgm_cipher_roundtrip_witness :
    demangle_text (mangle_text [1, 2, 3, 4]) = [1, 2, 3, 4] :=
  C7_qgm_cipher_roundtrip [1, 2, 3, 4] (by decide) (by decide)

/-! ### Palette table layout (C6) -/

/-- `getD` of a map over `List.range`. -/
theorem getD_map_range {α : Type} (f : Nat → α) (k n : Nat) (d : α) (h : n < k) :
    ((List.range k).map f).getD n d = f n := by
  simp [List.getD, List.getElem?_map, List.getElem?_range h]

/-- C6 counterexample: on the buffer with `byte i = i % 256`, decoded
palette entry 1 is the bytes at offsets 172, 173, 174 — not the bytes
at `168 + 3*1 = 171 …` that a packed 3-byte-stride table would give. -/
theorem C6_counterexample :
    dresPalEntry (NodDecoder_new exNod) 1 = some (172, 173, 174) ∧
    byteAtD exNod (168 + 3 * 1) = 171 ∧ byteAtD exNod (168 + 3 * 1 + 1) = 172 ∧
    byteAtD exNod (168 + 3 * 1 + 2) = 173 ∧
    ((172, 173, 174) : Nat × Nat × Nat) ≠ (171, 172, 173) := by
  refine ⟨?_, by decide, by decide, by decide, by decide⟩
  decide

/-- C6 (amended): the palette table decoder reads its 256 RGB entries at a
4-byte stride from the fixed table offset 168: entry `n` is the three bytes
at `168 + 4n`, `168 + 4n + 1`, `168 + 4n + 2`, with one (skipped) byte
between successive entries; the buffer must be long enough for the direct
indexing not to panic. -/
theorem C6_nod_palette_stride (data : List Nat) (n : Nat) (hn : n < 256)
    (hlen : 1191 ≤ data.length) :
    dresPalEntry (NodDecoder_new data) n =
      some (byteAtD data (168 + 4 * n), byteAtD data (168 + 4 * n + 1),
        byteAtD data (168 + 4 * n + 2)) := by
  rw [NodDecoder_new, if_pos hlen, dresPalEntry]
  rw [getD_map_range _ 256 n _ hn]
  simp [NOD_PALETTE_OFFSET, Nat.mul_comm]

/-- C6 witness at `exNod`, entry 2. -/
theorem C6_nod_palette_stride_witness :
    dresPalEntry (NodDecoder_new exNod) 2 = some (176, 177, 178) := by
  have h := C6_nod_palette_stride exNod 2 (by decide) (by decide)
  rw [h]
  decide

/-! ### RGB555 palette expansion (C8) -/

/-- C8: the RGB555 expansion scales each 5-bit channel by `255/31` with
truncation (the exact `f32` computation agrees with `⌊255*c/31⌋` on all
channel values), so a packed `0x0000` entry expands to `(0,0,0)` and a
packed `0x7FFF` entry to `(255,255,255)` in every decoded palette. -/
theorem C8_rgb555_expansion :
    (∀ c : Nat, c < 32 → scale5to8 c = 255 * c / 31) ∧
    (∀ (bytes : List Nat) (n : Nat), n < 256 → u16AtD bytes (2 * n) = 0 →
        (decode_rgb555_palette bytes).getD n (0, 0, 0) = (0, 0, 0)) ∧
    (∀ (bytes : List Nat) (n : Nat), n < 256 → u16AtD bytes (2 * n) = 0x7FFF →
        (decode_rgb555_palette bytes).getD n (0, 0, 0) = (255, 255, 255)) := by
  refine ⟨by decide, ?_, ?_⟩
  · intro bytes n hn hv
    rw [decode_rgb555_palette, getD_map_range _ 256 n _ hn]
    rw [hv]
    decide
  · intro bytes n hn hv
    rw [decode_rgb555_palette, getD_map_range _ 256 n _ hn]
    rw [hv]
    decide

/-- C8 witness: a mid-range channel value and both packed extremes. -/
theorem C8_rgb555_expansion_witness :
    scale5to8 5 = 41 ∧
    (decode_rgb555_palette [0, 0]).getD 0 (0, 0, 0) = (0, 0, 0) ∧
    (decode_rgb555_palette [255, 127]).getD 0 (0, 0, 0) = (255, 255, 255) := by
  refine ⟨?_, ?_, ?_⟩
  · rw [C8_rgb555_expansion.1 5 (by decide)]
  · exact C8_rgb555_expansion.2.1 [0, 0] 0 (by decide) (by decide)
  · exact C8_rgb555_expansion.2.2 [255, 127] 0 (by decide) (by decide)

/-! ### Sprite atlas: unsupported colour mode (C5) -/

/-- C5 counterexample: on a GRA buffer with colour mode 1 and one frame to
decode, `GraDecoder::new` panics (the `todo!` path), it does not return an
error as the claim states. -/
theorem C5_counterexample : GraDecoder_new (exGraMode 1) = .panicked := by
  rfl

/-- C5 (amended): a colour mode other than 0 and 2 makes the frame decode
panic (`todo!`) instead of returning an unsupported-mode error: every frame
decode under such a mode is a panic, and a whole-buffer decode that reaches
such a frame panics. -/
theorem C5_gra_unsupported_mode_panics :
    (∀ (gra_data : List Nat) (pos mode w h : Nat), mode ≠ 0 → mode ≠ 2 →
        decodeFrame gra_data pos mode w h = .panicked) ∧
    GraDecoder_new (exGraMode 7) = .panicked := by
  constructor
  · intro gra_data pos mode w h h0 h2
    rw [decodeFrame]
    split <;> simp [h0, h2]
  · rfl

/-- C5 witness for the universally-quantified part. -/
theorem C5_gra_unsupported_mode_panics_witness :
    decodeFrame [0] 0 5 1 1 = .panicked :=
  C5_gra_unsupported_mode_panics.1 [0] 0 5 1 1 (by decide) (by decide)

/-! ### Sprite pixel-buffer size invariant (C10) -/

theorem DRes_bind_ok {α β : Type} {x : DRes α} {f : α → DRes β} {b : β}
    (h : x >>= f = .ok b) : ∃ a, x = .ok a ∧ f a = .ok b := by
  cases x with
  | ok a => exact ⟨a, rfl, h⟩
  | error e => exact nomatch h
  | panicked => exact nomatch h

theorem repeatLoop_length : ∀ (count : Nat) (output : List Nat) (oi v : Nat)
    (out1 : List Nat) (oi1 : Nat),
    repeatLoop output oi v count = some (out1, oi1) → out1.length = output.length := by
  intro count
  induction count with
  | zero =>
    intro output oi v out1 oi1 h
    simp only [repeatLoop, Option.some.injEq, Prod.mk.injEq] at h
    rw [← h.1]
  | succ k ih =>
    intro output oi v out1 oi1 h
    rw [repeatLoop] at h
    split at h
    · dsimp only at h
      split at h
      · simp only [Option.some.injEq, Prod.mk.injEq] at h
        rw [← h.1]
        simp
      · exact (ih _ _ _ _ _ h).trans (by simp)
    · exact nomatch h

theorem literalLoop_length : ∀ (count : Nat) (output : List Nat) (oi : Nat)
    (chunk : List Nat) (out1 : List Nat) (oi1 : Nat),
    literalLoop output oi chunk count = some (out1, oi1) →
      out1.length = output.length := by
  intro count
  induction count with
  | zero =>
    intro output oi chunk out1 oi1 h
    simp only [literalLoop, Option.some.injEq, Prod.mk.injEq] at h
    rw [← h.1]
  | succ k ih =>
    intro output oi chunk out1 oi1 h
    cases chunk with
    | nil => exact nomatch h
    | cons b chunk1 =>
      rw [literalLoop] at h
      split at h
      · dsimp only at h
        split at h
        · simp only [Option.some.injEq, Prod.mk.injEq] at h
          rw [← h.1]
          simp
        · exact (ih _ _ _ _ _ h).trans (by simp)
      · exact nomatch h

theorem rleLoopF_length : ∀ (fuel : Nat) (data output : List Nat) (oi : Nat)
    (out1 : List Nat), rleLoopF fuel data output oi = some out1 →
      out1.length = output.length := by
  intro fuel
  induction fuel with
  | zero =>
    intro data output oi out1 h
    cases data with
    | nil =>
      simp only [rleLoopF, Option.some.injEq] at h
      rw [← h]
    | cons c rest => exact nomatch h
  | succ k ih =>
    intro data output oi out1 h
    cases data with
    | nil =>
      simp only [rleLoopF, Option.some.injEq] at h
      rw [← h]
    | cons c rest =>
      rw [rleLoopF_cons] at h
      split at h
      · exact ih _ _ _ _ h
      · split at h
        · cases rest with
          | nil => exact nomatch h
          | cons v rest1 =>
            dsimp only at h
            cases hrep : repeatLoop output oi v c with
            | none => rw [hrep] at h; exact nomatch h
            | some p =>
              obtain ⟨output1, oi1⟩ := p
              rw [hrep] at h
              simp only at h
              exact (ih _ _ _ _ h).trans (repeatLoop_length _ _ _ _ _ _ hrep)
        · cases hlit : literalLoop output oi rest (256 - c) with
          | none => rw [hlit] at h; exact nomatch h
          | some p =>
            obtain ⟨output1, oi1⟩ := p
            rw [hlit] at h
            simp only at h
            exact (ih _ _ _ _ h).trans (literalLoop_length _ _ _ _ _ _ hlit)

theorem decode_rle_length (data output out1 : List Nat)
    (h : decode_rle data output = some out1) : out1.length = output.length :=
  rleLoopF_length _ _ _ _ _ h

theorem decodeFrame_ok_length (gra_data : List Nat) (pos mode w h : Nat)
    (pixels : List Nat) (hok : decodeFrame gra_data pos mode w h = .ok pixels) :
    pixels.length = w * h % 2 ^ 32 := by
  rw [decodeFrame] at hok
  split at hok
  · dsimp only at hok
    split at hok
    · split at hok
      · simp only [DRes.ok.injEq] at hok
        rw [← hok]
        simp only [List.length_take]
        omega
      · exact nomatch hok
    · split at hok
      · cases hrle : decode_rle (gra_data.drop pos) (List.replicate (w * h % 2 ^ 32) 0) with
        | none => rw [hrle] at hok; exact nomatch hok
        | some p =>
          rw [hrle] at hok
          simp only [DRes.ok.injEq] at hok
          rw [← hok]
          have := decode_rle_length _ _ _ hrle
          simpa using this
      · exact nomatch hok
  · exact nomatch hok

theorem decodeFrames_ok_length : ∀ (fos gra_data : List Nat) (base mode w h : Nat)
    (sprites : List GraSprite),
    decodeFrames gra_data base mode w h fos = .ok sprites →
      ∀ s ∈ sprites, s.pixels.length = w * h % 2 ^ 32 := by
  intro fos
  induction fos with
  | nil =>
    intro gra_data base mode w h sprites hok s hs
    simp only [decodeFrames, DRes.ok.injEq] at hok
    rw [← hok] at hs
    simp at hs
  | cons fo fos1 ih =>
    intro gra_data base mode w h sprites hok s hs
    rw [decodeFrames] at hok
    obtain ⟨pixels, hf, hok⟩ := DRes_bind_ok hok
    obtain ⟨sps, hfs, hpure⟩ := DRes_bind_ok hok
    have hsp : ({ pixels := pixels } : GraSprite) :: sps = sprites := by
      simpa [pure] using hpure
    rw [← hsp] at hs
    cases hs with
    | head => exact decodeFrame_ok_length _ _ _ _ _ _ hf
    | tail _ hmem => exact ih _ _ _ _ _ _ hfs s hmem

theorem parseCollection_ok (gra_data : List Nat) (mode offset : Nat)
    (coll : GraSpriteCollection)
    (h : parseCollection gra_data mode offset = .ok coll) :
    ∀ s ∈ coll.sprites, s.pixels.length = coll.width * coll.height % 2 ^ 32 := by
  rw [parseCollection] at h
  obtain ⟨⟨x, c1⟩, h1, h⟩ := DRes_bind_ok h
  obtain ⟨⟨y, c2⟩, h2, h⟩ := DRes_bind_ok h
  obtain ⟨⟨w, c3⟩, h3, h⟩ := DRes_bind_ok h
  obtain ⟨⟨hgt, c4⟩, h4, h⟩ := DRes_bind_ok h
  obtain ⟨⟨ns, c5⟩, h5, h⟩ := DRes_bind_ok h
  obtain ⟨⟨delay, c6⟩, h6, h⟩ := DRes_bind_ok h
  obtain ⟨⟨fl, c7⟩, h7, h⟩ := DRes_bind_ok h
  obtain ⟨⟨fos, c8⟩, h8, h⟩ := DRes_bind_ok h
  obtain ⟨sprites, hf, hpure⟩ := DRes_bind_ok h
  have hc : GraSpriteCollection.mk x y w hgt delay sprites = coll :=
    DRes.ok.inj hpure
  rw [← hc]
  intro s hs
  exact decodeFrames_ok_length _ _ _ _ _ _ _ hf s hs

theorem parseCollections_ok : ∀ (offs gra_data : List Nat) (mode : Nat)
    (colls : List GraSpriteCollection),
    parseCollections gra_data mode offs = .ok colls →
      ∀ coll ∈ colls, ∀ s ∈ coll.sprites,
        s.pixels.length = coll.width * coll.height % 2 ^ 32 := by
  intro offs
  induction offs with
  | nil =>
    intro gra_data mode colls hok coll hc
    simp only [parseCollections, DRes.ok.injEq] at hok
    rw [← hok] at hc
    simp at hc
  | cons o os ih =>
    intro gra_data mode colls hok coll hc
    rw [parseCollections] at hok
    obtain ⟨c1, hp1, hok⟩ := DRes_bind_ok hok
    obtain ⟨cs, hps, hpure⟩ := DRes_bind_ok hok
    have hcs : c1 :: cs = colls := by simpa [pure] using hpure
    rw [← hcs] at hc
    cases hc with
    | head => exact parseCollection_ok _ _ _ _ hp1
    | tail _ hmem => exact ih _ _ _ hps coll hmem

/-- C10: for every GRA buffer on which `GraDecoder::new` succeeds, every
decoded sprite's pixel buffer has length exactly `width * height` of its
owning collection (as the wrapping `u32` product; equal to the plain
product whenever it does not overflow), under every colour mode — even
when a frame's RLE stream produces fewer bytes, since the buffer is
preallocated zero-filled. -/
theorem C10_gra_sprite_buffer_size (data : List Nat) (g : GraDecoder)
    (h : GraDecoder_new data = .ok g) :
    ∀ coll ∈ g.sprite_collections, ∀ s ∈ coll.sprites,
      s.pixels.length = coll.width * coll.height % 2 ^ 32 ∧
      (coll.width * coll.height < 2 ^ 32 →
        s.pixels.length = coll.width * coll.height) := by
  rw [GraDecoder_new] at h
  obtain ⟨⟨mode, c1⟩, h1, h⟩ := DRes_bind_ok h
  obtain ⟨⟨nc, c2⟩, h2, h⟩ := DRes_bind_ok h
  obtain ⟨⟨rgb, c3⟩, h3, h⟩ := DRes_bind_ok h
  obtain ⟨⟨offs, c4⟩, h4, h⟩ := DRes_bind_ok h
  obtain ⟨colls, hpc, hpure⟩ := DRes_bind_ok h
  have hg : GraDecoder.mk (decode_rgb555_palette rgb) colls = g :=
    DRes.ok.inj hpure
  rw [← hg]
  intro coll hc s hs
  have hlen := parseCollections_ok _ _ _ _ hpc coll hc s hs
  refine ⟨hlen, fun hsmall => ?_⟩
  rw [hlen, Nat.mod_eq_of_lt hsmall]

/-- C10 witness: the mode-2 buffer `exGra10` decodes with an under-filled
RLE frame whose pixel buffer still has length `2 * 2`. -/
theorem C10_gra_sprite_buffer_size_witness :
    ([9, 9, 0, 0] : List Nat).length = 2 * 2 % 2 ^ 32 ∧
    ([9, 9, 0, 0] : List Nat).length = 2 * 2 := by
  have hdec : GraDecoder_new exGra10 = .ok exGra10Model := rfl
  have hcoll : GraSpriteCollection.mk 5 6 2 2 0 [GraSprite.mk [9, 9, 0, 0]]
      ∈ exGra10Model.sprite_collections := by
    simp [exGra10Model]
  have hspr : ({ pixels := [9, 9, 0, 0] } : GraSprite) ∈
      [({ pixels := [9, 9, 0, 0] } : GraSprite)] := by simp
  have := C10_gra_sprite_buffer_size exGra10 exGra10Model hdec _ hcoll _ hspr
  exact ⟨this.1, this.2 (by norm_num)⟩

/-! ### Animation trailing-data check (C9) -/

theorem Except_bind_ok {ε α β : Type} {x : Except ε α} {f : α → Except ε β}
    {b : β} (h : x >>= f = .ok b) : ∃ a, x = .ok a ∧ f a = .ok b := by
  cases x with
  | ok a => exact ⟨a, rfl, h⟩
  | error e => exact nomatch h

/-- C9: `AnmDecoder::new` succeeds only when, after the header and all
declared blocks, the cursor sits exactly at the end of the buffer; and
whenever the declared structure parses but trailing bytes remain, it fails
with the extra-data error and returns no result. -/
theorem C9_anm_trailing_data :
    (∀ (anm_data : List Nat) (r : AnmDecoder), AnmDecoder_new anm_data = .ok r →
        ∃ pos, parseAnmStruct anm_data = .ok (r, pos) ∧ pos = anm_data.length) ∧
    (∀ (anm_data : List Nat) (r : AnmDecoder) (pos : Nat),
        parseAnmStruct anm_data = .ok (r, pos) → pos < anm_data.length →
        AnmDecoder_new anm_data =
          .error (.invalidData "got extra data after decoding")) := by
  constructor
  · intro anm_data r h
    rw [AnmDecoder_new] at h
    obtain ⟨⟨res, pos⟩, hp, hif⟩ := Except_bind_ok h
    dsimp only at hif
    by_cases hpe : pos = anm_data.length
    · have hres : res = r := by
        rw [if_neg (fun hne => hne hpe)] at hif
        exact Except.ok.inj hif
      exact ⟨pos, by rw [hp, hres], hpe⟩
    · rw [if_pos hpe] at hif
      exact nomatch hif
  · intro anm_data r pos hp hlt
    rw [AnmDecoder_new, hp]
    have hne : pos ≠ anm_data.length := by omega
    show (if pos ≠ anm_data.length then
        (.error (.invalidData "got extra data after decoding") : Except DErr AnmDecoder)
      else .ok r) = .error (.invalidData "got extra data after decoding")
    rw [if_pos hne]

/-- C9 witness: a well-formed 36-byte ANM buffer parses to its exact end,
and the same buffer with one trailing byte fails with the extra-data
error. -/
theorem C9_anm_trailing_data_witness :
    (∃ pos, parseAnmStruct exAnm =
        .ok (AnmDecoder.mk (List.replicate 16 0) 0 [], pos) ∧
      pos = exAnm.length) ∧
    AnmDecoder_new exAnmExtra =
      .error (.invalidData "got extra data after decoding") := by
  constructor
  · exact C9_anm_trailing_data.1 exAnm _ rfl
  · exact C9_anm_trailing_data.2 exAnmExtra (AnmDecoder.mk (List.replicate 16 0) 0 [])
      36 rfl (by decide)

/-! ### Mesh model structural cross-check (C3) -/

theorem readN_ok {c : BCursor} {n : Nat} {bs : List Nat} {c1 : BCursor}
    (h : c.readN n = .ok (bs, c1)) :
    bs = (c.data.drop c.pos).take n ∧ c1 = ⟨c.data, c.pos + n⟩ ∧
      c.pos + n ≤ c.data.length := by
  rw [BCursor.readN] at h
  split at h
  case isTrue hb =>
    simp only [Except.ok.injEq, Prod.mk.injEq] at h
    exact ⟨h.1.symm, h.2.symm, hb⟩
  case isFalse => exact nomatch h

theorem readU32_ok {c : BCursor} {v : Nat} {c1 : BCursor}
    (h : c.readU32 = .ok (v, c1)) :
    v = u32AtD c.data c.pos ∧ c1 = ⟨c.data, c.pos + 4⟩ ∧
      c.pos + 4 ≤ c.data.length := by
  rw [BCursor.readU32] at h
  obtain ⟨⟨bs, c2⟩, hr, hok⟩ := Except_bind_ok h
  obtain ⟨hbs, hc2, hb⟩ := readN_ok hr
  dsimp only at hok
  simp only [Except.ok.injEq, Prod.mk.injEq] at hok
  refine ⟨?_, ?_, hb⟩
  · rw [← hok.1, hbs, u32AtD]
  · rw [← hok.2, hc2]

theorem readU16_ok {c : BCursor} {v : Nat} {c1 : BCursor}
    (h : c.readU16 = .ok (v, c1)) :
    v = leVal ((c.data.drop c.pos).take 2) ∧ c1 = ⟨c.data, c.pos + 2⟩ ∧
      c.pos + 2 ≤ c.data.length := by
  rw [BCursor.readU16] at h
  obtain ⟨⟨bs, c2⟩, hr, hok⟩ := Except_bind_ok h
  obtain ⟨hbs, hc2, hb⟩ := readN_ok hr
  dsimp only at hok
  simp only [Except.ok.injEq, Prod.mk.injEq] at hok
  exact ⟨by rw [← hok.1, hbs], by rw [← hok.2, hc2], hb⟩

theorem take_drop_4 (data : List Nat) (p : Nat) (h : p + 4 ≤ data.length) :
    (data.drop p).take 4 = [byteAtD data p, byteAtD data (p + 1),
      byteAtD data (p + 2), byteAtD data (p + 3)] := by
  induction p generalizing data with
  | zero =>
    cases data with
    | nil => simp at h
    | cons d0 t0 =>
      cases t0 with
      | nil => simp at h
      | cons d1 t1 =>
        cases t1 with
        | nil => simp at h
        | cons d2 t2 =>
          cases t2 with
          | nil => simp at h
          | cons d3 t3 => rfl
  | succ p ih =>
    cases data with
    | nil => simp at h
    | cons d rest =>
      have hr : p + 4 ≤ rest.length := by
        simp at h
        omega
      exact ih rest hr

theorem take_drop_2 (data : List Nat) (p : Nat) (h : p + 2 ≤ data.length) :
    (data.drop p).take 2 = [byteAtD data p, byteAtD data (p + 1)] := by
  induction p generalizing data with
  | zero =>
    cases data with
    | nil => simp at h
    | cons d0 t0 =>
      cases t0 with
      | nil => simp at h
      | cons d1 t1 => rfl
  | succ p ih =>
    cases data with
    | nil => simp at h
    | cons d rest =>
      have hr : p + 2 ≤ rest.length := by
        simp at h
        omega
      exact ih rest hr

theorem u32AtD_eq_leVal4 (data : List Nat) (p : Nat) (h : p + 4 ≤ data.length) :
    u32AtD data p = leVal4 (byteAtD data p) (byteAtD data (p + 1))
      (byteAtD data (p + 2)) (byteAtD data (p + 3)) := by
  rw [u32AtD, take_drop_4 data p h]
  simp [leVal, leVal4]
  ring

theorem u16AtD_eq_leVal2 (data : List Nat) (p : Nat) (h : p + 2 ≤ data.length) :
    leVal ((data.drop p).take 2) = u16AtD data p := by
  rw [take_drop_2 data p h]
  simp [leVal, u16AtD]

theorem byteAtD_set_ne (data : List Nat) (i j b : Nat) (h : i ≠ j) :
    byteAtD (data.set i b) j = byteAtD data j := by
  simp [byteAtD, List.getD, List.getElem?_set_ne h]

theorem byteAtD_set_eq (data : List Nat) (i b : Nat) (h : i < data.length) :
    byteAtD (data.set i b) i = b := by
  simp [byteAtD, List.getD, List.getElem?_set_self, h]

theorem drop_take_set_outside (l : List Nat) (i p n b : Nat)
    (h : i < p ∨ p + n ≤ i) : ((l.set i b).drop p).take n = (l.drop p).take n := by
  apply List.ext_getElem?
  intro m
  by_cases hm : m < n
  · rw [List.getElem?_take_of_lt hm, List.getElem?_take_of_lt hm,
      List.getElem?_drop, List.getElem?_drop, List.getElem?_set_ne (by omega)]
  · rw [List.getElem?_take_eq_none (by omega), List.getElem?_take_eq_none (by omega)]

theorem u32AtD_set_outside (data : List Nat) (i p b : Nat)
    (h : i < p ∨ p + 4 ≤ i) : u32AtD (data.set i b) p = u32AtD data p := by
  rw [u32AtD, u32AtD, drop_take_set_outside data i p 4 b h]

theorem u16AtD_set_outside (data : List Nat) (i p b : Nat)
    (h : i < p ∨ p + 2 ≤ i) : u16AtD (data.set i b) p = u16AtD data p := by
  rw [u16AtD, u16AtD, byteAtD_set_ne data i p b (by omega),
    byteAtD_set_ne data i (p + 1) b (by omega)]

theorem u32AtD_set_inside_ne (data : List Nat) (i p b : Nat)
    (hp : p + 4 ≤ data.length) (h1 : p ≤ i) (h2 : i < p + 4)
    (hb : b ≠ byteAtD data i) :
    u32AtD (data.set i b) p ≠ u32AtD data p := by
  have hil : i < data.length := by omega
  rw [u32AtD_eq_leVal4 _ _ (by simpa using hp), u32AtD_eq_leVal4 _ _ hp]
  have hc : i = p ∨ i = p + 1 ∨ i = p + 2 ∨ i = p + 3 := by omega
  rcases hc with hc | hc | hc | hc <;> subst hc
  · rw [byteAtD_set_eq _ _ _ hil, byteAtD_set_ne _ _ _ _ (by omega),
      byteAtD_set_ne _ _ _ _ (by omega), byteAtD_set_ne _ _ _ _ (by omega)]
    simp only [leVal4]
    omega
  · rw [byteAtD_set_eq _ _ _ hil, byteAtD_set_ne _ _ _ _ (by omega),
      byteAtD_set_ne _ _ _ _ (by omega), byteAtD_set_ne _ _ _ _ (by omega)]
    simp only [leVal4]
    omega
  · rw [byteAtD_set_eq _ _ _ hil, byteAtD_set_ne _ _ _ _ (by omega),
      byteAtD_set_ne _ _ _ _ (by omega), byteAtD_set_ne _ _ _ _ (by omega)]
    simp only [leVal4]
    omega
  · rw [byteAtD_set_eq _ _ _ hil, byteAtD_set_ne _ _ _ _ (by omega),
      byteAtD_set_ne _ _ _ _ (by omega), byteAtD_set_ne _ _ _ _ (by omega)]
    simp only [leVal4]
    omega

theorem eIsOk_true_iff {ε α : Type} (x : Except ε α) :
    eIsOk x = true ↔ ∃ a, x = .ok a := by
  cases x <;> simp [eIsOk]

theorem parseSubMesh_ok_fields (data : List Nat) (pos : Nat) (sm : SubMesh)
    (cf : BCursor) (h : parseSubMesh data pos = .ok (sm, cf)) :
    pos + 124 ≤ data.length ∧
    u32AtD data (pos + 108) = 124 ∧
    u32AtD data (pos + 112) = (124 + 12 * u32AtD data (pos + 96)) % 2 ^ 32 ∧
    u32AtD data (pos + 116) =
      (u32AtD data (pos + 112) + 8 * u32AtD data (pos + 100)) % 2 ^ 32 ∧
    u32AtD data (pos + 120) =
      (u32AtD data (pos + 116) + 40 * u32AtD data (pos + 104)) % 2 ^ 32 := by
  rw [parseSubMesh] at h
  obtain ⟨⟨name, c1⟩, hr1, h⟩ := Except_bind_ok h
  obtain ⟨_, hc1, _⟩ := readN_ok hr1
  dsimp only at hc1
  subst hc1
  dsimp only at h
  split at h
  case isFalse => exact nomatch h
  case isTrue _ =>
  obtain ⟨⟨unk, c2⟩, hr2, h⟩ := Except_bind_ok h
  obtain ⟨_, hc2, _⟩ := readN_ok hr2
  dsimp only at hc2
  subst hc2
  dsimp only at h
  obtain ⟨⟨nv, c3⟩, hr3, h⟩ := Except_bind_ok h
  obtain ⟨hnv, hc3, _⟩ := readU32_ok hr3
  dsimp only at hnv hc3
  subst hc3
  dsimp only at h
  obtain ⟨⟨nt, c4⟩, hr4, h⟩ := Except_bind_ok h
  obtain ⟨hnt, hc4, _⟩ := readU32_ok hr4
  dsimp only at hnt hc4
  subst hc4
  dsimp only at h
  obtain ⟨⟨nf, c5⟩, hr5, h⟩ := Except_bind_ok h
  obtain ⟨hnf, hc5, _⟩ := readU32_ok hr5
  dsimp only at hnf hc5
  subst hc5
  dsimp only at h
  obtain ⟨⟨vl, c6⟩, hr6, h⟩ := Except_bind_ok h
  obtain ⟨hvl, hc6, _⟩ := readU32_ok hr6
  dsimp only at hvl hc6
  subst hc6
  dsimp only at h
  split at h
  case isTrue => exact nomatch h
  case isFalse hvlok =>
  obtain ⟨⟨r1, c7⟩, hr7, h⟩ := Except_bind_ok h
  obtain ⟨hr1v, hc7, _⟩ := readU32_ok hr7
  dsimp only at hr1v hc7
  subst hc7
  dsimp only at h
  split at h
  case isTrue => exact nomatch h
  case isFalse hr1ok =>
  obtain ⟨⟨r2, c8⟩, hr8, h⟩ := Except_bind_ok h
  obtain ⟨hr2v, hc8, _⟩ := readU32_ok hr8
  dsimp only at hr2v hc8
  subst hc8
  dsimp only at h
  split at h
  case isTrue => exact nomatch h
  case isFalse hr2ok =>
  obtain ⟨⟨r3, c9⟩, hr9, h⟩ := Except_bind_ok h
  obtain ⟨hr3v, hc9, hb9⟩ := readU32_ok hr9
  dsimp only at hr3v hc9 hb9
  subst hc9
  dsimp only at h
  split at h
  case isTrue => exact nomatch h
  case isFalse hr3ok =>
  rw [not_not] at hvlok hr1ok hr2ok hr3ok
  have e96 : pos + 16 + 80 = pos + 96 := by omega
  have e100 : pos + 16 + 80 + 4 = pos + 100 := by omega
  have e104 : pos + 16 + 80 + 4 + 4 = pos + 104 := by omega
  have e108 : pos + 16 + 80 + 4 + 4 + 4 = pos + 108 := by omega
  have e112 : pos + 16 + 80 + 4 + 4 + 4 + 4 = pos + 112 := by omega
  have e116 : pos + 16 + 80 + 4 + 4 + 4 + 4 + 4 = pos + 116 := by omega
  have e120 : pos + 16 + 80 + 4 + 4 + 4 + 4 + 4 + 4 = pos + 120 := by omega
  rw [e96] at hnv
  rw [e100] at hnt
  rw [e104] at hnf
  rw [e108] at hvl
  rw [e112] at hr1v
  rw [e116] at hr2v
  rw [e120] at hr3v hb9
  refine ⟨by omega, ?_, ?_, ?_, ?_⟩
  · rw [← hvl, hvlok]
  · rw [← hr1v, hr1ok, hvlok, hnv]
  · rw [← hr2v, hr2ok, hr1v, hnt]
  · rw [← hr3v, hr3ok, hr2v, hnf]

theorem parseSubMesh_perturb (data : List Nat) (pos : Nat) (sm : SubMesh)
    (cf : BCursor) (h : parseSubMesh data pos = .ok (sm, cf)) (i b : Nat)
    (hi1 : pos + 112 ≤ i) (hi2 : i < pos + 124) (hb : b ≠ byteAtD data i) :
    eIsOk (parseSubMesh (data.set i b) pos) = false := by
  cases hE : eIsOk (parseSubMesh (data.set i b) pos) with
  | false => rfl
  | true =>
    exfalso
    obtain ⟨⟨sm', cf'⟩, hok⟩ := (eIsOk_true_iff _).mp hE
    obtain ⟨hL, hvl, hr1, hr2, hr3⟩ := parseSubMesh_ok_fields data pos sm cf h
    obtain ⟨_, hvl', hr1', hr2', hr3'⟩ :=
      parseSubMesh_ok_fields (data.set i b) pos sm' cf' hok
    have hwin : (pos + 112 ≤ i ∧ i < pos + 116) ∨
        (pos + 116 ≤ i ∧ i < pos + 120) ∨
        (pos + 120 ≤ i ∧ i < pos + 124) := by omega
    rcases hwin with hw | hw | hw
    · have hout : u32AtD (data.set i b) (pos + 96) = u32AtD data (pos + 96) :=
        u32AtD_set_outside data i (pos + 96) b (by omega)
      have hne := u32AtD_set_inside_ne data i (pos + 112) b (by omega)
        (by omega) (by omega) hb
      rw [hr1', hout, ← hr1] at hne
      exact hne rfl
    · have hout112 : u32AtD (data.set i b) (pos + 112) = u32AtD data (pos + 112) :=
        u32AtD_set_outside data i (pos + 112) b (by omega)
      have hout100 : u32AtD (data.set i b) (pos + 100) = u32AtD data (pos + 100) :=
        u32AtD_set_outside data i (pos + 100) b (by omega)
      have hne := u32AtD_set_inside_ne data i (pos + 116) b (by omega)
        (by omega) (by omega) hb
      rw [hr2', hout112, hout100, ← hr2] at hne
      exact hne rfl
    · have hout116 : u32AtD (data.set i b) (pos + 116) = u32AtD data (pos + 116) :=
        u32AtD_set_outside data i (pos + 116) b (by omega)
      have hout104 : u32AtD (data.set i b) (pos + 104) = u32AtD data (pos + 104) :=
        u32AtD_set_outside data i (pos + 104) b (by omega)
      have hne := u32AtD_set_inside_ne data i (pos + 120) b (by omega)
        (by omega) (by omega) hb
      rw [hr3', hout116, hout104, ← hr3] at hne
      exact hne rfl

theorem readU32List_ok : ∀ (count : Nat) (c : BCursor) (vs : List Nat)
    (c1 : BCursor), c.readU32List count = .ok (vs, c1) →
    vs = (List.range count).map (fun k => u32AtD c.data (c.pos + 4 * k)) := by
  intro count
  induction count with
  | zero =>
    intro c vs c1 h
    simp only [BCursor.readU32List, Except.ok.injEq, Prod.mk.injEq] at h
    rw [← h.1]
    simp
  | succ k ih =>
    intro c vs c1 h
    rw [BCursor.readU32List] at h
    obtain ⟨⟨v, c2⟩, hr, h⟩ := Except_bind_ok h
    obtain ⟨hv, hc2, _⟩ := readU32_ok hr
    subst hc2
    dsimp only at h hv
    obtain ⟨⟨vs2, c3⟩, hrs, h⟩ := Except_bind_ok h
    have hvs2 := ih _ _ _ hrs
    dsimp only at hvs2 h
    simp only [Except.ok.injEq, Prod.mk.injEq] at h
    rw [← h.1, hvs2, hv, List.range_succ_eq_map]
    simp only [List.map_cons, List.map_map]
    congr 1
    apply List.map_congr_left
    intro a _
    simp only [Function.comp_apply]
    congr 1
    omega

theorem parseMdlHeader_ok (data : List Nat) (name palette : List Nat)
    (bto : Nat) (offs : List Nat)
    (h : parseMdlHeader data = .ok (name, palette, bto, offs)) :
    offs = (List.range (u16AtD data 28)).map
      (fun k => u32AtD data (1068 + 4 * k)) := by
  rw [parseMdlHeader] at h
  obtain ⟨⟨nm, c1⟩, hr1, h⟩ := Except_bind_ok h
  obtain ⟨_, hc1, _⟩ := readN_ok hr1
  simp only [BCursor.skip] at hc1
  subst hc1
  dsimp only at h
  split at h
  case isFalse => exact nomatch h
  case isTrue _ =>
  obtain ⟨⟨ns, c2⟩, hr2, h⟩ := Except_bind_ok h
  obtain ⟨hns, hc2, hb2⟩ := readU16_ok hr2
  dsimp only at hns hc2 hb2
  subst hc2
  dsimp only at h
  obtain ⟨⟨pal, c3⟩, hr3, h⟩ := Except_bind_ok h
  obtain ⟨_, hc3, _⟩ := readN_ok hr3
  simp only [BCursor.skip] at hc3
  subst hc3
  dsimp only at h
  obtain ⟨⟨bt, c4⟩, hr4, h⟩ := Except_bind_ok h
  obtain ⟨_, hc4, _⟩ := readU32_ok hr4
  dsimp only at hc4
  subst hc4
  dsimp only at h
  obtain ⟨⟨ofs, c5⟩, hr5, h⟩ := Except_bind_ok h
  have hofs := readU32List_ok _ _ _ _ hr5
  dsimp only at hofs h
  simp only [Except.ok.injEq, Prod.mk.injEq] at h
  obtain ⟨_, _, _, ho⟩ := h
  rw [← ho, hofs]
  rw [u16AtD_eq_leVal2 data 28 hb2] at hns
  rw [hns]

theorem parseSubMeshes_ok_mem : ∀ (offs : List Nat) (data : List Nat)
    (sms : List SubMesh), parseSubMeshes data offs = .ok sms →
    ∀ o ∈ offs, ∃ sm c1, parseSubMesh data o = .ok (sm, c1) := by
  intro offs
  induction offs with
  | nil =>
    intro data sms _ o ho
    simp at ho
  | cons o1 os ih =>
    intro data sms h o ho
    rw [parseSubMeshes] at h
    obtain ⟨⟨sm, c1⟩, hp, h⟩ := Except_bind_ok h
    dsimp only at h
    obtain ⟨sms2, hps, _⟩ := Except_bind_ok h
    cases ho with
    | head => exact ⟨sm, c1, hp⟩
    | tail _ hmem => exact ih _ _ hps o hmem

theorem Qfg5Model_new_ok (data : List Nat) (m : Qfg5Model)
    (h : Qfg5Model_new data = .ok m) :
    ∃ name palette bto offs,
      parseMdlHeader data = .ok (name, palette, bto, offs) ∧
      ∃ sms, parseSubMeshes data offs = .ok sms := by
  rw [Qfg5Model_new] at h
  obtain ⟨⟨name, palette, bto, offs⟩, hh, h⟩ := Except_bind_ok h
  dsimp only at h
  obtain ⟨sms, hs, _⟩ := Except_bind_ok h
  exact ⟨name, palette, bto, offs, hh, sms, hs⟩

/-- C3 (amended): the mesh-model structural cross-check.
(1) Submesh decoding succeeds only when the four stored offset fields
satisfy `vlist_addr = 0x7c`, `r1 = vlist_addr + 12*num_vertices`,
`r2 = r1 + 8*num_texcoords` and `r3 = r2 + 40*num_faces` (wrapping `u32`
arithmetic) — so it fails with a decode error unless they hold.
(2) Perturbing any single byte of a decodable submesh record's stored
`r1`/`r2`/`r3` field makes the submesh decode fail.
(3) For every otherwise-decodable model, perturbing any single byte of a
stored `r1`/`r2`/`r3` field of submesh `n` makes `Qfg5Model::new` return
an error, never a successfully decoded model, provided the perturbed
byte does not itself overlap submesh `n`'s offset-table entry (which
would redirect where the record is read from). That proviso is
necessary: the original unconditional claim is refuted by the aliased
model `exMdl2` in the counterexample below. -/
theorem C3_mdl_structural_crosscheck :
    (∀ (data : List Nat) (pos : Nat) (sm : SubMesh) (cf : BCursor),
        parseSubMesh data pos = .ok (sm, cf) →
        u32AtD data (pos + 108) = 0x7c ∧
        u32AtD data (pos + 112) = (0x7c + 12 * u32AtD data (pos + 96)) % 2 ^ 32 ∧
        u32AtD data (pos + 116) =
          (u32AtD data (pos + 112) + 8 * u32AtD data (pos + 100)) % 2 ^ 32 ∧
        u32AtD data (pos + 120) =
          (u32AtD data (pos + 116) + 40 * u32AtD data (pos + 104)) % 2 ^ 32) ∧
    (∀ (data : List Nat) (pos : Nat) (sm : SubMesh) (cf : BCursor) (i b : Nat),
        parseSubMesh data pos = .ok (sm, cf) →
        pos + 112 ≤ i → i < pos + 124 → b ≠ byteAtD data i →
        eIsOk (parseSubMesh (data.set i b) pos) = false) ∧
    (∀ (data : List Nat) (n i b : Nat),
        eIsOk (Qfg5Model_new data) = true →
        n < u16AtD data 28 →
        u32AtD data (1068 + 4 * n) + 112 ≤ i →
        i < u32AtD data (1068 + 4 * n) + 124 →
        ¬ (1068 + 4 * n ≤ i ∧ i < 1072 + 4 * n) →
        b ≠ byteAtD data i →
        eIsOk (Qfg5Model_new (data.set i b)) = false) := by
  refine ⟨?_, ?_, ?_⟩
  · intro data pos sm cf h
    exact (parseSubMesh_ok_fields data pos sm cf h).2
  · intro data pos sm cf i b h hi1 hi2 hb
    exact parseSubMesh_perturb data pos sm cf h i b hi1 hi2 hb
  · intro data n i b hok hn hi1 hi2 htab hb
    cases hE : eIsOk (Qfg5Model_new (data.set i b)) with
    | false => rfl
    | true =>
      exfalso
      obtain ⟨m, hm⟩ := (eIsOk_true_iff _).mp hok
      obtain ⟨nm, pal, bto, offs, hh, sms, hsms⟩ := Qfg5Model_new_ok data m hm
      obtain ⟨m', hm'⟩ := (eIsOk_true_iff _).mp hE
      obtain ⟨nm', pal', bto', offs', hh', sms', hsms'⟩ :=
        Qfg5Model_new_ok (data.set i b) m' hm'
      have hoffs := parseMdlHeader_ok data nm pal bto offs hh
      have hoffs' := parseMdlHeader_ok (data.set i b) nm' pal' bto' offs' hh'
      have hs' : u32AtD (data.set i b) (1068 + 4 * n) = u32AtD data (1068 + 4 * n) :=
        u32AtD_set_outside data i (1068 + 4 * n) b (by omega)
      have hN' : u16AtD (data.set i b) 28 = u16AtD data 28 :=
        u16AtD_set_outside data i 28 b (by omega)
      have hmem : u32AtD data (1068 + 4 * n) ∈ offs := by
        rw [hoffs]
        exact List.mem_map.mpr ⟨n, List.mem_range.mpr hn, rfl⟩
      have hmem' : u32AtD data (1068 + 4 * n) ∈ offs' := by
        rw [hoffs', hN']
        exact List.mem_map.mpr ⟨n, List.mem_range.mpr hn, hs'⟩
      obtain ⟨sm, cf, hsm⟩ := parseSubMeshes_ok_mem offs data sms hsms _ hmem
      obtain ⟨sm', cf', hsm'⟩ :=
        parseSubMeshes_ok_mem offs' (data.set i b) sms' hsms' _ hmem'
      have hperturb := parseSubMesh_perturb data (u32AtD data (1068 + 4 * n))
        sm cf hsm i b hi1 hi2 hb
      rw [hsm'] at hperturb
      exact absurd hperturb (by simp [eIsOk])

/-- C3 witness on the concrete model buffer `exMdl` (one submesh at 1072;
its `r1` field at bytes 1184–1187): the decoded fields satisfy the
equations, and setting byte 1184 (value 124) to 7 makes both the submesh
decode and the whole-model decode fail. -/
theorem C3_mdl_structural_crosscheck_witness :
    u32AtD exMdl (1072 + 108) = 0x7c ∧
    eIsOk (parseSubMesh (exMdl.set 1184 7) 1072) = false ∧
    eIsOk (Qfg5Model_new (exMdl.set 1184 7)) = false := by
  refine ⟨?_, ?_, ?_⟩
  · exact (C3_mdl_structural_crosscheck.1 exMdl 1072
      (SubMesh.mk (List.replicate 16 0) [] [] [] []) ⟨exMdl, 1196⟩ rfl).1
  · exact C3_mdl_structural_crosscheck.2.1 exMdl 1072
      (SubMesh.mk (List.replicate 16 0) [] [] [] []) ⟨exMdl, 1196⟩ 1184 7 rfl
      (by decide) (by decide) (by decide)
  · exact C3_mdl_structural_crosscheck.2.2 exMdl 0 1184 7 rfl (by decide)
      (by decide) (by decide) (by decide) (by decide)

/-! ### Archive decoding (C4) -/

theorem readN_eval (data : List Nat) (pos n : Nat) (h : pos + n ≤ data.length) :
    BCursor.readN ⟨data, pos⟩ n = .ok ((data.drop pos).take n, ⟨data, pos + n⟩) := by
  rw [BCursor.readN, if_pos h]

theorem readU16_eval (data : List Nat) (pos : Nat) (h : pos + 2 ≤ data.length) :
    BCursor.readU16 ⟨data, pos⟩ =
      .ok (leVal ((data.drop pos).take 2), ⟨data, pos + 2⟩) := by
  rw [BCursor.readU16, readN_eval data pos 2 h]
  rfl

theorem readU32_eval (data : List Nat) (pos : Nat) (h : pos + 4 ≤ data.length) :
    BCursor.readU32 ⟨data, pos⟩ = .ok (u32AtD data pos, ⟨data, pos + 4⟩) := by
  rw [BCursor.readU32, readN_eval data pos 4 h]
  rfl

theorem leVal_u32le (v : Nat) (hv : v < 2 ^ 32) : leVal (u32le v) = v := by
  simp [leVal, u32le]
  omega

theorem leVal_u16le (v : Nat) (hv : v < 2 ^ 16) : leVal (u16le v) = v := by
  simp [leVal, u16le]
  omega

theorem u32AtD_u32le (v : Nat) (B : List Nat) (hv : v < 2 ^ 32) :
    u32AtD (u32le v ++ B) 0 = v := by
  rw [u32AtD, List.drop_zero, show (4 : Nat) = (u32le v).length from rfl,
    List.take_left]
  exact leVal_u32le v hv

theorem encodeRec_length (r : SpkRec) (hwf : r.Wf) :
    (encodeRec r).length = 46 + r.fname.length := by
  obtain ⟨h1, h2, _⟩ := hwf
  simp [encodeRec, h1, h2, u32le]
  omega

theorem encodeDir_cons (r : SpkRec) (rs : List SpkRec) :
    encodeDir (r :: rs) = encodeRec r ++ encodeDir rs := by
  simp [encodeDir]

theorem drop_at (file : List Nat) (p k j : Nat) (X : List Nat)
    (h : file.drop p = X) (hj : j = p + k) : file.drop j = X.drop k := by
  subst hj
  rw [← h, List.drop_drop]

theorem u32AtD_of_drop (file : List Nat) (q v : Nat) (B : List Nat)
    (h : file.drop q = u32le v ++ B) (hv : v < 2 ^ 32) : u32AtD file q = v := by
  rw [u32AtD, h, show (4 : Nat) = (u32le v).length from rfl, List.take_left]
  exact leVal_u32le v hv

theorem leVal2_of_drop (file : List Nat) (q v : Nat) (B : List Nat)
    (h : file.drop q = u16le v ++ B) (hv : v < 2 ^ 16) :
    leVal ((file.drop q).take 2) = v := by
  rw [h, show (2 : Nat) = (u16le v).length from rfl, List.take_left]
  exact leVal_u16le v hv

theorem Except_bind_ok_eval {ε α β : Type} (a : α) (f : α → Except ε β) :
    (Except.ok a >>= f : Except ε β) = f a := rfl

/-! ### The C3 counterexample model (`exMdl2`): evaluated step by step
with the cursor-read lemmas, so no proof step computes the length of the
1920-byte buffer by structural recursion. -/

theorem exMdl2_len : exMdl2.length = 1920 := by
  simp [exMdl2, u16le, u32le]

theorem exMdl2s_len : (exMdl2.set 1069 0).length = 1920 := by
  simp [exMdl2_len]

theorem readU32List_one (data : List Nat) (p : Nat) (h : p + 4 ≤ data.length) :
    BCursor.readU32List ⟨data, p⟩ 1 = .ok ([u32AtD data p], ⟨data, p + 4⟩) := by
  have e : BCursor.readU32List ⟨data, p⟩ 1 = (do
      let (v, c1) ← BCursor.readU32 ⟨data, p⟩
      let (vs, c2) ← c1.readU32List 0
      (.ok (v :: vs, c2) : Except DErr (List Nat × BCursor))) := rfl
  rw [e, readU32_eval data p h]
  dsimp only [Except_bind_ok_eval]
  rw [show BCursor.readU32List (⟨data, p + 4⟩ : BCursor) 0 =
    (.ok ([], ⟨data, p + 4⟩) : Except DErr (List Nat × BCursor)) from rfl]
  dsimp only [Except_bind_ok_eval]

theorem exMdl2_header : parseMdlHeader exMdl2 =
    .ok ((exMdl2.drop 12).take 16, ((exMdl2.drop 45).take 1019, 136, [952])) := by
  rw [parseMdlHeader]
  dsimp only [BCursor.skip]
  rw [show (0 : Nat) + 12 = 12 from rfl]
  rw [readN_eval exMdl2 12 16 (by rw [exMdl2_len]; omega)]
  dsimp only [Except_bind_ok_eval]
  rw [show utf8Valid ((exMdl2.drop 12).take 16) = true from by decide,
    if_pos rfl]
  rw [show (12 : Nat) + 16 = 28 from rfl]
  rw [readU16_eval exMdl2 28 (by rw [exMdl2_len]; omega)]
  dsimp only [Except_bind_ok_eval]
  rw [show leVal ((exMdl2.drop 28).take 2) = 1 from by decide]
  rw [show (28 : Nat) + 2 + 15 = 45 from rfl]
  rw [readN_eval exMdl2 45 1019 (by rw [exMdl2_len]; omega)]
  dsimp only [Except_bind_ok_eval]
  rw [show (45 : Nat) + 1019 = 1064 from rfl]
  rw [readU32_eval exMdl2 1064 (by rw [exMdl2_len]; omega)]
  dsimp only [Except_bind_ok_eval]
  rw [show u32AtD exMdl2 1064 = 136 from by decide]
  rw [show (1064 : Nat) + 4 = 1068 from rfl]
  rw [readU32List_one exMdl2 1068 (by rw [exMdl2_len]; omega)]
  dsimp only [Except_bind_ok_eval]
  rw [show u32AtD exMdl2 1068 = 952 from by decide]

theorem exMdl2_sub : parseSubMesh exMdl2 952 = .ok (SubMesh.mk
    ((exMdl2.drop 952).take 16) ((exMdl2.drop 1076).take (12 * 1))
    ((exMdl2.drop 1088).take (8 * 102)) ((exMdl2.drop 1904).take (40 * 0))
    ((exMdl2.drop 1904).take (16 * 1)), ⟨exMdl2, 1904 + 16 * 1⟩) := by
  rw [parseSubMesh]
  dsimp only
  rw [readN_eval exMdl2 952 16 (by rw [exMdl2_len]; omega)]
  dsimp only [Except_bind_ok_eval]
  rw [show utf8Valid ((exMdl2.drop 952).take 16) = true from by decide,
    if_pos rfl]
  rw [show (952 : Nat) + 16 = 968 from rfl]
  rw [readN_eval exMdl2 968 80 (by rw [exMdl2_len]; omega)]
  dsimp only [Except_bind_ok_eval]
  rw [show (968 : Nat) + 80 = 1048 from rfl]
  rw [readU32_eval exMdl2 1048 (by rw [exMdl2_len]; omega)]
  dsimp only [Except_bind_ok_eval]
  rw [show u32AtD exMdl2 1048 = 1 from by decide]
  rw [show (1048 : Nat) + 4 = 1052 from rfl]
  rw [readU32_eval exMdl2 1052 (by rw [exMdl2_len]; omega)]
  dsimp only [Except_bind_ok_eval]
  rw [show u32AtD exMdl2 1052 = 102 from by decide]
  rw [show (1052 : Nat) + 4 = 1056 from rfl]
  rw [readU32_eval exMdl2 1056 (by rw [exMdl2_len]; omega)]
  dsimp only [Except_bind_ok_eval]
  rw [show u32AtD exMdl2 1056 = 0 from by decide]
  rw [show (1056 : Nat) + 4 = 1060 from rfl]
  rw [readU32_eval exMdl2 1060 (by rw [exMdl2_len]; omega)]
  dsimp only [Except_bind_ok_eval]
  rw [show u32AtD exMdl2 1060 = 124 from by decide]
  rw [if_neg (by decide)]
  rw [show (1060 : Nat) + 4 = 1064 from rfl]
  rw [readU32_eval exMdl2 1064 (by rw [exMdl2_len]; omega)]
  dsimp only [Except_bind_ok_eval]
  rw [show u32AtD exMdl2 1064 = 136 from by decide]
  rw [if_neg (by decide)]
  rw [show (1064 : Nat) + 4 = 1068 from rfl]
  rw [readU32_eval exMdl2 1068 (by rw [exMdl2_len]; omega)]
  dsimp only [Except_bind_ok_eval]
  rw [show u32AtD exMdl2 1068 = 952 from by decide]
  rw [if_neg (by decide)]
  rw [show (1068 : Nat) + 4 = 1072 from rfl]
  rw [readU32_eval exMdl2 1072 (by rw [exMdl2_len]; omega)]
  dsimp only [Except_bind_ok_eval]
  rw [show u32AtD exMdl2 1072 = 952 from by decide]
  rw [if_neg (by decide)]
  rw [show (1072 : Nat) + 4 = 1076 from rfl]
  rw [readN_eval exMdl2 1076 (12 * 1) (by rw [exMdl2_len]; omega)]
  dsimp only [Except_bind_ok_eval]
  rw [show (1076 : Nat) + 12 * 1 = 1088 from rfl]
  rw [readN_eval exMdl2 1088 (8 * 102) (by rw [exMdl2_len]; omega)]
  dsimp only [Except_bind_ok_eval]
  rw [show (1088 : Nat) + 8 * 102 = 1904 from rfl]
  rw [readN_eval exMdl2 1904 (40 * 0) (by rw [exMdl2_len]; omega)]
  dsimp only [Except_bind_ok_eval]
  rw [show (1904 : Nat) + 40 * 0 = 1904 from rfl]
  rw [readN_eval exMdl2 1904 (16 * 1) (by simp [exMdl2_len])]
  dsimp only [Except_bind_ok_eval]

theorem exMdl2_bitmaps : parseSubBitmaps exMdl2 136 = .ok [] := by
  rw [parseSubBitmaps]
  rw [readU32_eval exMdl2 136 (by rw [exMdl2_len]; omega)]
  dsimp only [Except_bind_ok_eval]
  rw [show u32AtD exMdl2 136 = 0 from by decide]
  rw [if_neg (by decide)]
  rw [if_neg (by decide)]
  rw [show (0 : Nat) / 4 = 0 from rfl]
  rw [show parseSubBitmapList (⟨exMdl2, 136 + 4⟩ : BCursor) 0 =
    (.ok ([], ⟨exMdl2, 136 + 4⟩) :
      Except DErr (List SubBitmap × BCursor)) from rfl]
  dsimp only [Except_bind_ok_eval]

theorem exMdl2_model : Qfg5Model_new exMdl2 =
    .ok (Qfg5Model.mk ((exMdl2.drop 12).take 16) ((exMdl2.drop 45).take 1019)
      [SubMesh.mk ((exMdl2.drop 952).take 16)
        ((exMdl2.drop 1076).take (12 * 1)) ((exMdl2.drop 1088).take (8 * 102))
        ((exMdl2.drop 1904).take (40 * 0)) ((exMdl2.drop 1904).take (16 * 1))]
      []) := by
  rw [Qfg5Model_new, exMdl2_header]
  dsimp only [Except_bind_ok_eval]
  rw [parseSubMeshes, exMdl2_sub]
  dsimp only [Except_bind_ok_eval]
  rw [parseSubMeshes]
  dsimp only [Except_bind_ok_eval]
  rw [exMdl2_bitmaps]
  dsimp only [Except_bind_ok_eval]

theorem exMdl2s_header : parseMdlHeader (exMdl2.set 1069 0) =
    .ok (((exMdl2.set 1069 0).drop 12).take 16,
      (((exMdl2.set 1069 0).drop 45).take 1019, 136, [184])) := by
  rw [parseMdlHeader]
  dsimp only [BCursor.skip]
  rw [show (0 : Nat) + 12 = 12 from rfl]
  rw [readN_eval (exMdl2.set 1069 0) 12 16 (by rw [exMdl2s_len]; omega)]
  dsimp only [Except_bind_ok_eval]
  rw [show utf8Valid (((exMdl2.set 1069 0).drop 12).take 16) = true from
    by decide, if_pos rfl]
  rw [show (12 : Nat) + 16 = 28 from rfl]
  rw [readU16_eval (exMdl2.set 1069 0) 28 (by rw [exMdl2s_len]; omega)]
  dsimp only [Except_bind_ok_eval]
  rw [show leVal (((exMdl2.set 1069 0).drop 28).take 2) = 1 from by decide]
  rw [show (28 : Nat) + 2 + 15 = 45 from rfl]
  rw [readN_eval (exMdl2.set 1069 0) 45 1019 (by rw [exMdl2s_len]; omega)]
  dsimp only [Except_bind_ok_eval]
  rw [show (45 : Nat) + 1019 = 1064 from rfl]
  rw [readU32_eval (exMdl2.set 1069 0) 1064 (by rw [exMdl2s_len]; omega)]
  dsimp only [Except_bind_ok_eval]
  rw [show u32AtD (exMdl2.set 1069 0) 1064 = 136 from by decide]
  rw [show (1064 : Nat) + 4 = 1068 from rfl]
  rw [readU32List_one (exMdl2.set 1069 0) 1068 (by rw [exMdl2s_len]; omega)]
  dsimp only [Except_bind_ok_eval]
  rw [show u32AtD (exMdl2.set 1069 0) 1068 = 184 from by decide]

theorem exMdl2s_sub : parseSubMesh (exMdl2.set 1069 0) 184 = .ok (SubMesh.mk
    (((exMdl2.set 1069 0).drop 184).take 16)
    (((exMdl2.set 1069 0).drop 308).take (12 * 0))
    (((exMdl2.set 1069 0).drop 308).take (8 * 0))
    (((exMdl2.set 1069 0).drop 308).take (40 * 0))
    (((exMdl2.set 1069 0).drop 308).take (16 * 0)),
    ⟨exMdl2.set 1069 0, 308 + 16 * 0⟩) := by
  rw [parseSubMesh]
  dsimp only
  rw [readN_eval (exMdl2.set 1069 0) 184 16 (by rw [exMdl2s_len]; omega)]
  dsimp only [Except_bind_ok_eval]
  rw [show utf8Valid (((exMdl2.set 1069 0).drop 184).take 16) = true from
    by decide, if_pos rfl]
  rw [show (184 : Nat) + 16 = 200 from rfl]
  rw [readN_eval (exMdl2.set 1069 0) 200 80 (by rw [exMdl2s_len]; omega)]
  dsimp only [Except_bind_ok_eval]
  rw [show (200 : Nat) + 80 = 280 from rfl]
  rw [readU32_eval (exMdl2.set 1069 0) 280 (by rw [exMdl2s_len]; omega)]
  dsimp only [Except_bind_ok_eval]
  rw [show u32AtD (exMdl2.set 1069 0) 280 = 0 from by decide]
  rw [show (280 : Nat) + 4 = 284 from rfl]
  rw [readU32_eval (exMdl2.set 1069 0) 284 (by rw [exMdl2s_len]; omega)]
  dsimp only [Except_bind_ok_eval]
  rw [show u32AtD (exMdl2.set 1069 0) 284 = 0 from by decide]
  rw [show (284 : Nat) + 4 = 288 from rfl]
  rw [readU32_eval (exMdl2.set 1069 0) 288 (by rw [exMdl2s_len]; omega)]
  dsimp only [Except_bind_ok_eval]
  rw [show u32AtD (exMdl2.set 1069 0) 288 = 0 from by decide]
  rw [show (288 : Nat) + 4 = 292 from rfl]
  rw [readU32_eval (exMdl2.set 1069 0) 292 (by rw [exMdl2s_len]; omega)]
  dsimp only [Except_bind_ok_eval]
  rw [show u32AtD (exMdl2.set 1069 0) 292 = 124 from by decide]
  rw [if_neg (by decide)]
  rw [show (292 : Nat) + 4 = 296 from rfl]
  rw [readU32_eval (exMdl2.set 1069 0) 296 (by rw [exMdl2s_len]; omega)]
  dsimp only [Except_bind_ok_eval]
  rw [show u32AtD (exMdl2.set 1069 0) 296 = 124 from by decide]
  rw [if_neg (by decide)]
  rw [show (296 : Nat) + 4 = 300 from rfl]
  rw [readU32_eval (exMdl2.set 1069 0) 300 (by rw [exMdl2s_len]; omega)]
  dsimp only [Except_bind_ok_eval]
  rw [show u32AtD (exMdl2.set 1069 0) 300 = 124 from by decide]
  rw [if_neg (by decide)]
  rw [show (300 : Nat) + 4 = 304 from rfl]
  rw [readU32_eval (exMdl2.set 1069 0) 304 (by rw [exMdl2s_len]; omega)]
  dsimp only [Except_bind_ok_eval]
  rw [show u32AtD (exMdl2.set 1069 0) 304 = 124 from by decide]
  rw [if_neg (by decide)]
  rw [show (304 : Nat) + 4 = 308 from rfl]
  rw [readN_eval (exMdl2.set 1069 0) 308 (12 * 0) (by rw [exMdl2s_len]; omega)]
  dsimp only [Except_bind_ok_eval]
  rw [show (308 : Nat) + 12 * 0 = 308 from rfl]
  rw [readN_eval (exMdl2.set 1069 0) 308 (8 * 0) (by rw [exMdl2s_len]; omega)]
  dsimp only [Except_bind_ok_eval]
  rw [show (308 : Nat) + 8 * 0 = 308 from rfl]
  rw [readN_eval (exMdl2.set 1069 0) 308 (40 * 0) (by rw [exMdl2s_len]; omega)]
  dsimp only [Except_bind_ok_eval]
  rw [show (308 : Nat) + 40 * 0 = 308 from rfl]
  rw [readN_eval (exMdl2.set 1069 0) 308 (16 * 0) (by rw [exMdl2s_len]; omega)]
  dsimp only [Except_bind_ok_eval]

theorem exMdl2s_bitmaps : parseSubBitmaps (exMdl2.set 1069 0) 136 = .ok [] := by
  rw [parseSubBitmaps]
  rw [readU32_eval (exMdl2.set 1069 0) 136 (by rw [exMdl2s_len]; omega)]
  dsimp only [Except_bind_ok_eval]
  rw [show u32AtD (exMdl2.set 1069 0) 136 = 0 from by decide]
  rw [if_neg (by decide)]
  rw [if_neg (by decide)]
  rw [show (0 : Nat) / 4 = 0 from rfl]
  rw [show parseSubBitmapList (⟨exMdl2.set 1069 0, 136 + 4⟩ : BCursor) 0 =
    (.ok ([], ⟨exMdl2.set 1069 0, 136 + 4⟩) :
      Except DErr (List SubBitmap × BCursor)) from rfl]
  dsimp only [Except_bind_ok_eval]

theorem exMdl2s_model : Qfg5Model_new (exMdl2.set 1069 0) =
    .ok (Qfg5Model.mk (((exMdl2.set 1069 0).drop 12).take 16)
      (((exMdl2.set 1069 0).drop 45).take 1019)
      [SubMesh.mk (((exMdl2.set 1069 0).drop 184).take 16)
        (((exMdl2.set 1069 0).drop 308).take (12 * 0))
        (((exMdl2.set 1069 0).drop 308).take (8 * 0))
        (((exMdl2.set 1069 0).drop 308).take (40 * 0))
        (((exMdl2.set 1069 0).drop 308).take (16 * 0))]
      []) := by
  rw [Qfg5Model_new, exMdl2s_header]
  dsimp only [Except_bind_ok_eval]
  rw [parseSubMeshes, exMdl2s_sub]
  dsimp only [Except_bind_ok_eval]
  rw [parseSubMeshes]
  dsimp only [Except_bind_ok_eval]
  rw [exMdl2s_bitmaps]
  dsimp only [Except_bind_ok_eval]

/-- C3 counterexample to the original claim: in `exMdl2` the single
submesh record sits at offset 952 (the offset-table entry at bytes
1068–1071 holds 952), so the record's stored `r2` field — bytes
`952 + 116 = 1068` through `952 + 119 = 1071` — is the table entry
itself. The model decodes successfully, byte 1069 (value 3) lies inside
that stored `r2` field, and setting it to 0 redirects the table entry to
the second valid record at offset 184: `Qfg5Model::new` again succeeds
and returns a different model, not the error the original claim
requires. -/
theorem C3_counterexample :
    eIsOk (Qfg5Model_new exMdl2) = true ∧
    u16AtD exMdl2 28 = 1 ∧
    u32AtD exMdl2 1068 = 952 ∧
    eIsOk (parseSubMesh exMdl2 952) = true ∧
    952 + 116 ≤ 1069 ∧ 1069 < 952 + 120 ∧
    byteAtD exMdl2 1069 = 3 ∧
    eIsOk (Qfg5Model_new (exMdl2.set 1069 0)) = true ∧
    Qfg5Model_new (exMdl2.set 1069 0) ≠ Qfg5Model_new exMdl2 := by
  refine ⟨?_, by decide, by decide, ?_, by decide, by decide, by decide,
    ?_, ?_⟩
  · rw [exMdl2_model]
    rfl
  · rw [exMdl2_sub]
    rfl
  · rw [exMdl2s_model]
    rfl
  · rw [exMdl2s_model, exMdl2_model]
    intro h
    rw [Except.ok.injEq, Qfg5Model.mk.injEq] at h
    obtain ⟨-, -, hsub, -⟩ := h
    rw [List.cons.injEq] at hsub
    obtain ⟨hsm, -⟩ := hsub
    rw [SubMesh.mk.injEq] at hsm
    obtain ⟨-, -, htex, -, -⟩ := hsm
    have hlen := congrArg List.length htex
    simp only [List.length_take, List.length_drop, exMdl2_len, exMdl2s_len]
      at hlen
    omega


theorem readSpkItems_step (file : List Nat) (p : Nat) (r : SpkRec) (Z : List Nat)
    (hdrop : file.drop p = encodeRec r ++ Z) (hwf : r.Wf) (lfs idx k : Nat) :
    readSpkItems lfs ⟨file, p⟩ idx (k + 1) =
      ((do
        let (rest, c2) ←
          readSpkItems lfs ⟨file, p + 46 + r.fname.length⟩ (idx + 1) k
        .ok (SpkItem.mk (if utf8Valid r.fname then r.fname else corruptName idx)
          (add32 (add32 (add32 lfs r.loc) 0x42) r.fname.length) r.size :: rest,
          c2)) : Except DErr (List SpkItem × BCursor)) := by
  obtain ⟨hpre, hmid, hsz, hloc, hflen⟩ := hwf
  have hdl := congrArg List.length hdrop
  rw [List.length_drop, List.length_append,
    encodeRec_length r ⟨hpre, hmid, hsz, hloc, hflen⟩] at hdl
  have hd0 : file.drop p = r.pre ++ (u32le r.size ++ (u32le r.size ++
      (u32le r.fname.length ++ (r.mid ++ (u32le r.loc ++ (r.fname ++ Z)))))) := by
    rw [hdrop, encodeRec]
    simp only [List.append_assoc]
  have hd20 : file.drop (p + 20) = u32le r.size ++ (u32le r.size ++
      (u32le r.fname.length ++ (r.mid ++ (u32le r.loc ++ (r.fname ++ Z))))) := by
    rw [drop_at file p 20 (p + 20) _ hd0 rfl,
      show (20 : Nat) = r.pre.length from hpre.symm, List.drop_left]
  have hd24 : file.drop (p + 24) = u32le r.size ++
      (u32le r.fname.length ++ (r.mid ++ (u32le r.loc ++ (r.fname ++ Z)))) := by
    rw [drop_at file (p + 20) 4 (p + 24) _ hd20 (by omega)]
    simp [u32le]
  have hd28 : file.drop (p + 28) =
      u32le r.fname.length ++ (r.mid ++ (u32le r.loc ++ (r.fname ++ Z))) := by
    rw [drop_at file (p + 24) 4 (p + 28) _ hd24 (by omega)]
    simp [u32le]
  have hd32 : file.drop (p + 32) = r.mid ++ (u32le r.loc ++ (r.fname ++ Z)) := by
    rw [drop_at file (p + 28) 4 (p + 32) _ hd28 (by omega)]
    simp [u32le]
  have hd42 : file.drop (p + 42) = u32le r.loc ++ (r.fname ++ Z) := by
    rw [drop_at file (p + 32) 10 (p + 42) _ hd32 (by omega),
      show (10 : Nat) = r.mid.length from hmid.symm, List.drop_left]
  have hd46 : file.drop (p + 46) = r.fname ++ Z := by
    rw [drop_at file (p + 42) 4 (p + 46) _ hd42 (by omega)]
    simp [u32le]
  have hv20 : u32AtD file (p + 20) = r.size := u32AtD_of_drop file _ _ _ hd20 hsz
  have hv24 : u32AtD file (p + 24) = r.size := u32AtD_of_drop file _ _ _ hd24 hsz
  have hv28 : u32AtD file (p + 28) = r.fname.length :=
    u32AtD_of_drop file _ _ _ hd28 hflen
  have hv42 : u32AtD file (p + 42) = r.loc := u32AtD_of_drop file _ _ _ hd42 hloc
  have hfn : (file.drop (p + 46)).take r.fname.length = r.fname := by
    rw [hd46, List.take_left]
  rw [readSpkItems]
  dsimp only [BCursor.skip]
  rw [readU32_eval file (p + 20) (by omega)]
  dsimp only [Except_bind_ok_eval]
  rw [hv20, show p + 20 + 4 = p + 24 from by omega,
    readU32_eval file (p + 24) (by omega)]
  dsimp only [Except_bind_ok_eval]
  rw [hv24, if_neg (by simp)]
  rw [show p + 24 + 4 = p + 28 from by omega,
    readU32_eval file (p + 28) (by omega)]
  dsimp only [Except_bind_ok_eval]
  rw [hv28]
  rw [show p + 28 + 4 + 10 = p + 42 from by omega,
    readU32_eval file (p + 42) (by omega)]
  dsimp only [Except_bind_ok_eval]
  rw [hv42, show p + 42 + 4 = p + 46 from by omega,
    readN_eval file (p + 46) r.fname.length (by omega)]
  dsimp only [Except_bind_ok_eval]
  rw [hfn]

theorem readSpkItems_encode : ∀ (recs : List SpkRec) (file Z : List Nat)
    (p lfs idx : Nat), (∀ r ∈ recs, r.Wf) →
    file.drop p = encodeDir recs ++ Z →
    readSpkItems lfs ⟨file, p⟩ idx recs.length =
      .ok (spkExpected lfs idx recs, ⟨file, p + (encodeDir recs).length⟩) := by
  intro recs
  induction recs with
  | nil =>
    intro file Z p lfs idx _ _
    simp [readSpkItems, spkExpected, encodeDir]
  | cons r rs ih =>
    intro file Z p lfs idx hwf hdrop
    have hwr : r.Wf := hwf r (by simp)
    have hdrop1 : file.drop p = encodeRec r ++ (encodeDir rs ++ Z) := by
      rw [hdrop, encodeDir_cons, List.append_assoc]
    rw [show (r :: rs).length = rs.length + 1 from rfl]
    rw [readSpkItems_step file p r (encodeDir rs ++ Z) hdrop1 hwr lfs idx rs.length]
    have hd46f : file.drop (p + 46 + r.fname.length) = encodeDir rs ++ Z := by
      rw [drop_at file p (46 + r.fname.length) (p + 46 + r.fname.length)
        (encodeRec r ++ (encodeDir rs ++ Z)) hdrop1 (by omega),
        show 46 + r.fname.length = (encodeRec r).length from
          (encodeRec_length r hwr).symm, List.drop_left]
    rw [ih file Z (p + 46 + r.fname.length) lfs (idx + 1)
      (fun x hx => hwf x (by simp [hx])) hd46f]
    have hlen2 : p + 46 + r.fname.length + (encodeDir rs).length =
        p + (encodeDir (r :: rs)).length := by
      rw [encodeDir_cons, List.length_append, encodeRec_length r hwr]
      omega
    dsimp only
    rw [hlen2]
    rfl

theorem spkTrailer_length (n a b : Nat) : (spkTrailer n a b).length = 22 := by
  simp [spkTrailer, u16le, u32le]

theorem sub32_exact (a b : Nat) (ha : a < 2 ^ 32) (hb : b ≤ a) :
    sub32 a b = a - b := by
  rw [sub32, Nat.mod_eq_of_lt ha, Nat.mod_eq_of_lt (Nat.lt_of_le_of_lt hb ha)]
  omega

theorem spkExpected_length (lfs : Nat) :
    ∀ (idx : Nat) (recs : List SpkRec),
      (spkExpected lfs idx recs).length = recs.length := by
  intro idx recs
  induction recs generalizing idx with
  | nil => rfl
  | cons r rs ih => simp [spkExpected, ih]

theorem spkExpected_get : ∀ (recs : List SpkRec) (lfs idx i : Nat)
    (hi : i < recs.length),
    ∃ it : SpkItem, (spkExpected lfs idx recs).get? i = some it ∧
      it.offset = add32 (add32 (add32 lfs (recs.get ⟨i, hi⟩).loc) 0x42)
        (recs.get ⟨i, hi⟩).fname.length ∧
      it.length = (recs.get ⟨i, hi⟩).size := by
  intro recs
  induction recs with
  | nil =>
    intro lfs idx i hi
    exact absurd hi (by simp)
  | cons r rs ih =>
    intro lfs idx i hi
    match i with
    | 0 => exact ⟨_, rfl, rfl, rfl⟩
    | j + 1 =>
      obtain ⟨it, h1, h2, h3⟩ := ih lfs (idx + 1) j (by simpa using hi)
      exact ⟨it, h1, h2, h3⟩

/-- **C4.** Archive decoding: for every synthesized archive (body bytes,
then the central directory encoding the records, then a well-formed
22-byte end-of-directory trailer whose duplicated entry counts match and
whose directory records each declare equal compressed and decompressed
sizes), `SpkArchive_new` returns exactly `recs.length` entries; entry
`i`'s absolute byte offset is `local_file_start + item_location_i + 0x42
+ filename_length_i` (wrapping `u32` additions, equal to the plain sum
whenever it does not overflow) and its length equals the declared
decompressed size; and `read_item` on any in-range entry returns exactly
that entry's `length` bytes read at that offset. -/
theorem C4_spk_archive :
    (∀ (body : List Nat) (recs : List SpkRec) (b : Nat),
      (∀ r ∈ recs, r.Wf) → recs.length < 2 ^ 16 →
      (spkFile body recs b).length < 2 ^ 32 → b < 2 ^ 32 →
      SpkArchive_new (spkFile body recs b) =
        .ok (spkExpected (sub32 (sub32 (body.length + 22) b) 0x16) 0 recs)) ∧
    (∀ (lfs idx : Nat) (recs : List SpkRec),
      (spkExpected lfs idx recs).length = recs.length) ∧
    (∀ (recs : List SpkRec) (lfs idx i : Nat) (hi : i < recs.length),
      ∃ it : SpkItem, (spkExpected lfs idx recs).get? i = some it ∧
        it.offset = add32 (add32 (add32 lfs (recs.get ⟨i, hi⟩).loc) 0x42)
          (recs.get ⟨i, hi⟩).fname.length ∧
        it.length = (recs.get ⟨i, hi⟩).size) ∧
    (∀ lfs loc fl : Nat, lfs + loc + 0x42 + fl < 2 ^ 32 →
      add32 (add32 (add32 lfs loc) 0x42) fl = lfs + loc + 0x42 + fl) ∧
    (∀ (file : List Nat) (item : SpkItem),
      item.offset + item.length ≤ file.length →
      read_item file item = .ok ((file.drop item.offset).take item.length) ∧
      ((file.drop item.offset).take item.length).length = item.length) := by
  refine ⟨?_, spkExpected_length, spkExpected_get, ?_, ?_⟩
  · intro body recs b hwf hn hL hb
    have hF : (spkFile body recs b).length =
        body.length + (encodeDir recs).length + 22 := by
      rw [spkFile]
      simp [spkTrailer_length]
      omega
    have hL2 : body.length + (encodeDir recs).length + 22 < 2 ^ 32 := hF ▸ hL
    have hdrop : (spkFile body recs b).drop body.length =
        encodeDir recs ++ spkTrailer recs.length (encodeDir recs).length b := by
      rw [spkFile, List.append_assoc]
      exact List.drop_left body _
    have htrail : (spkFile body recs b).drop
        (body.length + (encodeDir recs).length) =
        spkTrailer recs.length (encodeDir recs).length b := by
      rw [drop_at (spkFile body recs b) body.length (encodeDir recs).length _ _
        hdrop rfl, List.drop_left]
    have hpk : leVal (((spkFile body recs b).drop
        (body.length + (encodeDir recs).length)).take 2) = 0x4b50 := by
      rw [htrail]
      rfl
    have hd2 : (spkFile body recs b).drop
        (body.length + (encodeDir recs).length + 2) =
        (spkTrailer recs.length (encodeDir recs).length b).drop 2 :=
      drop_at _ _ 2 _ _ htrail rfl
    have hid : leVal (((spkFile body recs b).drop
        (body.length + (encodeDir recs).length + 2)).take 2) = 0x0705 := by
      rw [hd2]
      rfl
    have hd8 : (spkFile body recs b).drop
        (body.length + (encodeDir recs).length + 8) =
        u16le recs.length ++ (u16le recs.length ++
          (u32le (encodeDir recs).length ++ (u32le b ++ [0, 0]))) := by
      rw [drop_at _ (body.length + (encodeDir recs).length) 8 _ _ htrail rfl]
      rfl
    have hv8 : leVal (((spkFile body recs b).drop
        (body.length + (encodeDir recs).length + 8)).take 2) = recs.length :=
      leVal2_of_drop _ _ _ _ hd8 hn
    have hd10 : (spkFile body recs b).drop
        (body.length + (encodeDir recs).length + 10) =
        u16le recs.length ++
          (u32le (encodeDir recs).length ++ (u32le b ++ [0, 0])) := by
      rw [drop_at _ (body.length + (encodeDir recs).length) 10 _ _ htrail rfl]
      rfl
    have hv10 : leVal (((spkFile body recs b).drop
        (body.length + (encodeDir recs).length + 10)).take 2) = recs.length :=
      leVal2_of_drop _ _ _ _ hd10 hn
    have hd12 : (spkFile body recs b).drop
        (body.length + (encodeDir recs).length + 12) =
        u32le (encodeDir recs).length ++ (u32le b ++ [0, 0]) := by
      rw [drop_at _ (body.length + (encodeDir recs).length) 12 _ _ htrail rfl]
      rfl
    have hv12 : u32AtD (spkFile body recs b)
        (body.length + (encodeDir recs).length + 12) =
        (encodeDir recs).length :=
      u32AtD_of_drop _ _ _ _ hd12 (by omega)
    have hd16 : (spkFile body recs b).drop
        (body.length + (encodeDir recs).length + 16) =
        u32le b ++ [0, 0] := by
      rw [drop_at _ (body.length + (encodeDir recs).length) 16 _ _ htrail rfl]
      rfl
    have hv16 : u32AtD (spkFile body recs b)
        (body.length + (encodeDir recs).length + 16) = b :=
      u32AtD_of_drop _ _ _ _ hd16 hb
    rw [SpkArchive_new, hF, Nat.mod_eq_of_lt hL2,
      if_neg (show ¬(body.length + (encodeDir recs).length + 22 < 22) from
        by omega)]
    rw [show body.length + (encodeDir recs).length + 22 - 22 =
      body.length + (encodeDir recs).length from by omega]
    dsimp only
    rw [readU16_eval _ (body.length + (encodeDir recs).length)
      (by rw [hF]; omega)]
    dsimp only [Except_bind_ok_eval]
    rw [hpk, if_neg (by simp)]
    rw [readU16_eval _ (body.length + (encodeDir recs).length + 2)
      (by rw [hF]; omega)]
    dsimp only [Except_bind_ok_eval]
    rw [hid, if_neg (by simp)]
    dsimp only [BCursor.skip]
    rw [show body.length + (encodeDir recs).length + 2 + 2 + 4 =
      body.length + (encodeDir recs).length + 8 from by omega]
    rw [readU16_eval _ (body.length + (encodeDir recs).length + 8)
      (by rw [hF]; omega)]
    dsimp only [Except_bind_ok_eval]
    rw [hv8]
    rw [show body.length + (encodeDir recs).length + 8 + 2 =
      body.length + (encodeDir recs).length + 10 from by omega]
    rw [readU16_eval _ (body.length + (encodeDir recs).length + 10)
      (by rw [hF]; omega)]
    dsimp only [Except_bind_ok_eval]
    rw [hv10, if_neg (by simp)]
    rw [show body.length + (encodeDir recs).length + 10 + 2 =
      body.length + (encodeDir recs).length + 12 from by omega]
    rw [readU32_eval _ (body.length + (encodeDir recs).length + 12)
      (by rw [hF]; omega)]
    dsimp only [Except_bind_ok_eval]
    rw [hv12]
    rw [show body.length + (encodeDir recs).length + 12 + 4 =
      body.length + (encodeDir recs).length + 16 from by omega]
    rw [readU32_eval _ (body.length + (encodeDir recs).length + 16)
      (by rw [hF]; omega)]
    dsimp only [Except_bind_ok_eval]
    rw [hv16]
    have hs1 : sub32 (body.length + (encodeDir recs).length + 22)
        (encodeDir recs).length = body.length + 22 := by
      rw [sub32_exact _ _ (by omega) (by omega)]
      omega
    have hs2 : sub32 (body.length + 22) 0x16 = body.length := by
      rw [sub32_exact _ _ (by omega) (by omega)]
      omega
    rw [hs1, hs2]
    rw [readSpkItems_encode recs (spkFile body recs b)
      (spkTrailer recs.length (encodeDir recs).length b) body.length
      (sub32 (sub32 (body.length + 22) b) 0x16) 0 hwf hdrop]
    dsimp only [Except_bind_ok_eval]
  · intro lfs loc fl h
    simp only [add32]
    omega
  · intro file item h
    refine ⟨by rw [read_item, if_pos h], ?_⟩
    simp [List.length_take, List.length_drop]
    omega

/-- Witness for C4 at a concrete archive: a 5-byte body, one directory
record (size 3, location 0, filename `"A"`), trailer size field `b = 5`;
the archive decodes to the single expected item and `read_item` on it
returns the 3 bytes at absolute offset 67. -/
theorem C4_spk_archive_witness :
    SpkArchive_new (spkFile [1, 2, 3, 4, 5]
        [SpkRec.mk (List.replicate 20 0) 3 (List.replicate 10 0) 0 [65]] 5) =
      .ok [SpkItem.mk [65] 67 3] ∧
    read_item (spkFile [1, 2, 3, 4, 5]
        [SpkRec.mk (List.replicate 20 0) 3 (List.replicate 10 0) 0 [65]] 5)
      (SpkItem.mk [65] 67 3) = .ok [0, 5, 0] := by
  constructor
  · rw [C4_spk_archive.1 [1, 2, 3, 4, 5]
      [SpkRec.mk (List.replicate 20 0) 3 (List.replicate 10 0) 0 [65]] 5
      (by intro r hr
          rw [List.mem_singleton] at hr
          subst hr
          exact ⟨rfl, rfl, by decide, by decide, by decide⟩)
      (by decide) (by decide) (by decide)]
    rfl
  · rw [(C4_spk_archive.2.2.2.2 (spkFile [1, 2, 3, 4, 5]
      [SpkRec.mk (List.replicate 20 0) 3 (List.replicate 10 0) 0 [65]] 5)
      (SpkItem.mk [65] 67 3) (by decide)).1]
    rfl

end Qfg5
